import Mathlib

/-!
Verification of the Aurora backend core against its specification.

This file gives a shallow embedding, in Lean 4, of the parts of the
repository that the specification's claims are about:

* `backend/core/services/supabase.py` — the `PostgresQueryBuilder`
  fluent query builder (WHERE-clause compiler, SELECT/INSERT/UPDATE/
  DELETE/UPSERT statement generation, value coercion, result shaping);
* `backend/core/sandbox/docker_sandbox.py` — `_find_available_port`
  and `delete_sandbox`.

Python strings become Lean `String`s, Python dicts become ordered
association lists, the asyncpg connection and the Docker client become
explicit records of oracle functions, raised exceptions become
`Except.error`, and Python `datetime` objects are modelled by their
wall-clock instant (in seconds) plus an optional UTC-offset (seconds),
which is faithful for every datetime operation the embedded code
performs (`tzinfo is None`, `tzinfo == timezone.utc`, `replace(tzinfo=
timezone.utc)`, `astimezone(timezone.utc)`, field-wise reconstruction).

The theorems at the end settle the claims C1–C10.
-/

set_option maxHeartbeats 1000000

namespace Aurora

/-! ## Python `str(int)` (decimal rendering), modelled with explicit fuel
so that it is kernel-executable. -/

/-- Character for a decimal digit `d < 10`. -/
def digitChar (d : Nat) : Char := Char.ofNat (48 + d)

/-- Fuel-driven digit emitter: renders `n` in decimal in front of `acc`.
`fuel ≥ n` suffices (each step divides `n` by 10). -/
def natToStrGo : Nat → Nat → List Char → List Char
  | 0, _, acc => acc
  | f + 1, n, acc =>
    if n < 10 then digitChar n :: acc
    else natToStrGo f (n / 10) (digitChar (n % 10) :: acc)

/-- Decimal rendering of a natural number, as Python `str`/f-string
interpolation renders a nonnegative `int`. -/
def natToStr (n : Nat) : String := ⟨natToStrGo (n + 1) n []⟩

/-- Decimal rendering of an integer, as Python renders an `int`. -/
def intToStr (i : Int) : String :=
  if i < 0 then "-" ++ natToStr i.natAbs else natToStr i.natAbs

/-- Python `sep.join(list)`. -/
def joinWith (sep : String) : List String → String
  | [] => ""
  | [x] => x
  | x :: xs => x ++ sep ++ joinWith sep xs

/-- Value of a decimal digit string, accumulated onto `m`. -/
def digitsVal (m : Nat) (cs : List Char) : Nat :=
  cs.foldl (fun a c => 10 * a + (c.toNat - 48)) m

/-! ## Placeholder scanner

A verification instrument (not part of the source): it scans a SQL text
left to right and returns, in order of occurrence, the numbers `n` of
the `$n` positional-placeholder tokens it contains (`$` followed by a
maximal nonempty run of decimal digits).  The claims about placeholder
numbering are stated through this function. -/

/-- Scanner state: ordinary text, just after a `$`, or inside the
digit run of a placeholder whose value so far is `n`. -/
inductive PhSt where
  | norm
  | dollar
  | num (n : Nat)
deriving DecidableEq, Repr

/-- Core scan over a character list. -/
def phAux : List Char → PhSt → List Nat
  | [], .num n => [n]
  | [], _ => []
  | c :: rest, .norm =>
    if c = '$' then phAux rest .dollar else phAux rest .norm
  | c :: rest, .dollar =>
    if c.isDigit then phAux rest (.num (c.toNat - 48))
    else if c = '$' then phAux rest .dollar else phAux rest .norm
  | c :: rest, .num n =>
    if c.isDigit then phAux rest (.num (10 * n + (c.toNat - 48)))
    else if c = '$' then n :: phAux rest .dollar else n :: phAux rest .norm

/-- The `$n` placeholder numbers occurring in a SQL text, in order. -/
def placeholdersIn (s : String) : List Nat := phAux s.data .norm

/-- A string free of the `$` character (so it cannot contribute or
distort placeholder tokens).  Column and table identifiers supplied by
the repository's call sites satisfy this. -/
def dollarFree (s : String) : Prop := ∀ c ∈ s.data, c ≠ '$'

instance (s : String) : Decidable (dollarFree s) := by
  unfold dollarFree; infer_instance

/-- A character list whose head, if any, is not a decimal digit (so a
placeholder digit run ending right before it is maximal). -/
def headNonDigit (l : List Char) : Prop := ∀ c, l.head? = some c → c.isDigit = false

instance (l : List Char) : Decidable (headNonDigit l) := by
  unfold headNonDigit
  cases l with
  | nil => exact isTrue (by intro c h; cases h)
  | cons a t =>
    cases h : a.isDigit with
    | true => exact isFalse (by intro hf; have := hf a rfl; rw [h] at this; cases this)
    | false => exact isTrue (by intro c hc; cases hc; exact h)

/-! ## Data model for embedded Python values -/

/-- A Python `datetime`, modelled by its naive wall-clock reading `wall`
(seconds on a linear scale) and its `tzinfo`: `none` for a naive
datetime, `some o` for a fixed UTC offset of `o` seconds (`some 0` is
`timezone.utc`).  The instant an aware datetime denotes is
`wall - offset`. -/
structure PyDatetime where
  wall : Int
  tz : Option Int
deriving DecidableEq, Repr

/-- The UTC instant denoted by an aware datetime. -/
def PyDatetime.instant (d : PyDatetime) : Int := d.wall - d.tz.getD 0

/-- Python `astimezone(timezone.utc)` on an aware datetime: same
instant, offset zero. -/
def PyDatetime.astimezoneUTC (d : PyDatetime) : PyDatetime :=
  ⟨d.wall - d.tz.getD 0, some 0⟩

/-- Python `replace(tzinfo=timezone.utc)`: same wall-clock fields,
offset zero. -/
def PyDatetime.replaceTzUTC (d : PyDatetime) : PyDatetime :=
  ⟨d.wall, some 0⟩

/-- A JSON-encodable Python value (dict / list payload fields). -/
inductive Json where
  | null
  | bool (b : Bool)
  | num (i : Int)
  | str (s : String)
  | arr (xs : List Json)
  | obj (kvs : List (String × Json))

/-- Minimal JSON string escaping (quote and backslash). -/
def jsonEscape (s : String) : String :=
  ⟨s.data.foldr (fun c acc =>
    (if c = '"' then ['\\', '"'] else if c = '\\' then ['\\', '\\'] else [c]) ++ acc) []⟩

mutual

/-- Serialization of a `Json` value, standing in for Python
`json.dumps(..., cls=UUIDEncoder)` from `supabase.py`.  The claims never
inspect the rendered text, only that dict/list payload values are bound
as their serialized string. -/
def Json.dumps : Json → String
  | .null => "null"
  | .bool true => "true"
  | .bool false => "false"
  | .num i => intToStr i
  | .str s => "\"" ++ jsonEscape s ++ "\""
  | .arr xs => "[" ++ joinWith ", " (Json.dumpsList xs) ++ "]"
  | .obj kvs => "\x7b" ++ joinWith ", " (Json.dumpsPairs kvs) ++ "\x7d"

/-- Serialization of the elements of a JSON array. -/
def Json.dumpsList : List Json → List String
  | [] => []
  | x :: xs => Json.dumps x :: Json.dumpsList xs

/-- Serialization of the entries of a JSON object. -/
def Json.dumpsPairs : List (String × Json) → List String
  | [] => []
  | (k, v) :: xs => ("\"" ++ jsonEscape k ++ "\": " ++ Json.dumps v) :: Json.dumpsPairs xs

end

/-- A Python value as it appears in payloads and filters. -/
inductive PyVal where
  | vNull
  | vBool (b : Bool)
  | vInt (i : Int)
  | vStr (s : String)
  | vDatetime (d : PyDatetime)
  | vJson (j : Json)

/-- A row / Python dict: an insertion-ordered association list. -/
abbrev Row := List (String × PyVal)

/-- Python `json.dumps(value)` (no custom encoder), used by the
`contains` / `contained_by` filter compilation for non-string values.
A `datetime` argument would raise `TypeError` in Python; no claim (and
no repository call site) exercises that case, so the model renders it
through its JSON-free fields. -/
def pyDumps : PyVal → String
  | .vNull => "null"
  | .vBool true => "true"
  | .vBool false => "false"
  | .vInt i => intToStr i
  | .vStr s => "\"" ++ jsonEscape s ++ "\""
  | .vDatetime d => intToStr d.wall
  | .vJson j => j.dumps

/-! ## Embedding of `PostgresQueryBuilder` (supabase.py) -/

/-- One accumulated filter, as appended by the chainable filter
methods: the tuple `(op, column, value)` (or the 4-tuple for
`jsonb_eq`). -/
inductive Filter where
  | eq (column : String) (value : PyVal)
  | neq (column : String) (value : PyVal)
  | gt (column : String) (value : PyVal)
  | gte (column : String) (value : PyVal)
  | lt (column : String) (value : PyVal)
  | lte (column : String) (value : PyVal)
  | like (column : String) (pattern : String)
  | ilike (column : String) (pattern : String)
  | is (column : String) (value : PyVal)
  | is_not (column : String) (value : PyVal)
  | in_ (column : String) (values : List PyVal)
  | not_in (column : String) (values : List PyVal)
  | contains (column : String) (value : PyVal)
  | contained_by (column : String) (value : PyVal)
  | jsonb_eq (jsonb_column : String) (jsonb_path : String) (value : PyVal)

/-- The `_operation` field of the builder. -/
inductive Operation where
  | select
  | insert
  | update
  | delete
  | upsert
deriving DecidableEq

/-- The `_data` payload: `None` initially, a list of rows for
insert/upsert, a dict for update. -/
inductive Payload where
  | null
  | rows (rs : List Row)
  | dict (d : Row)

/-- Python truthiness of `_data` (`if not self._data`). -/
def Payload.falsy : Payload → Bool
  | .null => true
  | .rows [] => true
  | .dict [] => true
  | _ => false

/-- The asyncpg connection yielded by `pool.acquire()`, as a record of
deterministic oracle functions over (SQL text, positional parameters):
`fetch` returns the rows the database produces for the query, `fetchval`
the scalar of a `SELECT COUNT(*)`, `fetchrow` at most one row, and
`exec` a status string such as `"UPDATE 3"`. -/
structure Conn where
  fetch : String → List PyVal → List Row
  fetchval : String → List PyVal → Option Int
  fetchrow : String → List PyVal → Option Row
  exec : String → List PyVal → String

/-- Result data in the shape `PostgresQueryResult` carries: a list of
rows, a bare row (from `single`/`maybe_single`), or Python `None`. -/
inductive ResultData where
  | list (rows : List Row)
  | one (row : Row)
  | null

/-- Python truthiness of a candidate `data` argument. -/
def ResultData.falsy : ResultData → Bool
  | .list [] => true
  | .one [] => true
  | .null => true
  | _ => false

/-- A `PostgresQueryResult`. -/
structure PostgresQueryResult where
  data : ResultData
  count : Int

/-- The `PostgresQueryResult.__init__` constructor: it stores
`data or []`, so any falsy argument — including `None` — is coalesced
to the empty list. -/
def mkResult (data : ResultData) (count : Int) : PostgresQueryResult :=
  ⟨if data.falsy then .list [] else data, count⟩

/-- The builder state accumulated by chaining (fields of
`PostgresQueryBuilder.__init__`). -/
structure PostgresQueryBuilder where
  pool : Option Conn
  table_name : String
  schema_name : String
  select_fields : String
  count_mode : Option String
  filters : List Filter
  order_by : List (String × Bool)
  limit_val : Option Int
  offset_val : Option Int
  range_start : Option Int
  range_end : Option Int
  single_flag : Bool
  maybe_single_flag : Bool
  operation : Operation
  data : Payload
  returning : Bool

/-- The `__init__` defaults: `PostgresQueryBuilder(pool, table_name,
schema_name='public')`. -/
def initBuilder (pool : Option Conn) (table_name schema_name : String) : PostgresQueryBuilder :=
  { pool := pool
    table_name := table_name
    schema_name := schema_name
    select_fields := "*"
    count_mode := none
    filters := []
    order_by := []
    limit_val := none
    offset_val := none
    range_start := none
    range_end := none
    single_flag := false
    maybe_single_flag := false
    operation := .select
    data := .null
    returning := true }

namespace PostgresQueryBuilder

/-- The `select(fields='*', count=None)` method (`if count:` guards the
count-mode update). -/
def select (b : PostgresQueryBuilder) (fields : String) (count : Option String) : PostgresQueryBuilder :=
  let b := { b with select_fields := fields, operation := .select }
  match count with
  | some c => if c = "" then b else { b with count_mode := some c }
  | none => b

/-- The `insert(data, returning='representation')` method; a non-list
argument is wrapped into a one-element list by the caller-side match. -/
def insert (b : PostgresQueryBuilder) (data : List Row) (returning : String) : PostgresQueryBuilder :=
  { b with operation := .insert, data := .rows data, returning := returning ≠ "minimal" }

/-- The `update(data, returning='representation')` method. -/
def update (b : PostgresQueryBuilder) (data : Row) (returning : String) : PostgresQueryBuilder :=
  { b with operation := .update, data := .dict data, returning := returning ≠ "minimal" }

/-- The `upsert(data, on_conflict=None, returning='representation')`
method; note the `on_conflict` argument is accepted and ignored by the
source. -/
def upsert (b : PostgresQueryBuilder) (data : List Row) (returning : String) : PostgresQueryBuilder :=
  { b with operation := .upsert, data := .rows data, returning := returning ≠ "minimal" }

/-- The `delete(returning='representation')` method. -/
def delete (b : PostgresQueryBuilder) (returning : String) : PostgresQueryBuilder :=
  { b with operation := .delete, returning := returning ≠ "minimal" }

/-- The `eq` filter method. -/
def eq (b : PostgresQueryBuilder) (column : String) (value : PyVal) : PostgresQueryBuilder :=
  { b with filters := b.filters ++ [.eq column value] }

/-- The `neq` filter method. -/
def neq (b : PostgresQueryBuilder) (column : String) (value : PyVal) : PostgresQueryBuilder :=
  { b with filters := b.filters ++ [.neq column value] }

/-- The `gt` filter method. -/
def gt (b : PostgresQueryBuilder) (column : String) (value : PyVal) : PostgresQueryBuilder :=
  { b with filters := b.filters ++ [.gt column value] }

/-- The `gte` filter method. -/
def gte (b : PostgresQueryBuilder) (column : String) (value : PyVal) : PostgresQueryBuilder :=
  { b with filters := b.filters ++ [.gte column value] }

/-- The `lt` filter method. -/
def lt (b : PostgresQueryBuilder) (column : String) (value : PyVal) : PostgresQueryBuilder :=
  { b with filters := b.filters ++ [.lt column value] }

/-- The `lte` filter method. -/
def lte (b : PostgresQueryBuilder) (column : String) (value : PyVal) : PostgresQueryBuilder :=
  { b with filters := b.filters ++ [.lte column value] }

/-- The `like` filter method. -/
def like (b : PostgresQueryBuilder) (column : String) (pattern : String) : PostgresQueryBuilder :=
  { b with filters := b.filters ++ [.like column pattern] }

/-- The `ilike` filter method. -/
def ilike (b : PostgresQueryBuilder) (column : String) (pattern : String) : PostgresQueryBuilder :=
  { b with filters := b.filters ++ [.ilike column pattern] }

/-- The `is_` filter method. -/
def is_ (b : PostgresQueryBuilder) (column : String) (value : PyVal) : PostgresQueryBuilder :=
  { b with filters := b.filters ++ [.is column value] }

/-- The `in_` filter method. -/
def in_ (b : PostgresQueryBuilder) (column : String) (values : List PyVal) : PostgresQueryBuilder :=
  { b with filters := b.filters ++ [.in_ column values] }

/-- The `contains` filter method. -/
def contains (b : PostgresQueryBuilder) (column : String) (value : PyVal) : PostgresQueryBuilder :=
  { b with filters := b.filters ++ [.contains column value] }

/-- The `contained_by` filter method. -/
def contained_by (b : PostgresQueryBuilder) (column : String) (value : PyVal) : PostgresQueryBuilder :=
  { b with filters := b.filters ++ [.contained_by column value] }

/-- The `jsonb_eq(jsonb_column, jsonb_path, value)` method: it appends
the 4-tuple filter verbatim, performing no validation of
`jsonb_path`. -/
def jsonb_eq (b : PostgresQueryBuilder) (jsonb_column jsonb_path : String) (value : PyVal) : PostgresQueryBuilder :=
  { b with filters := b.filters ++ [.jsonb_eq jsonb_column jsonb_path value] }

/-- The `order(column, desc=False)` method. -/
def order (b : PostgresQueryBuilder) (column : String) (desc : Bool) : PostgresQueryBuilder :=
  { b with order_by := b.order_by ++ [(column, desc)] }

/-- The `limit` method. -/
def limit (b : PostgresQueryBuilder) (count : Int) : PostgresQueryBuilder :=
  { b with limit_val := some count }

/-- The `offset` method. -/
def offset (b : PostgresQueryBuilder) (count : Int) : PostgresQueryBuilder :=
  { b with offset_val := some count }

/-- The `range(start, end)` method. -/
def range (b : PostgresQueryBuilder) (start stop : Int) : PostgresQueryBuilder :=
  { b with range_start := some start, range_end := some stop }

/-- The `single()` method: sets the flag and forces `LIMIT 1`. -/
def single (b : PostgresQueryBuilder) : PostgresQueryBuilder :=
  { b with single_flag := true, limit_val := some 1 }

/-- The `maybe_single()` method: sets the flag and forces `LIMIT 1`. -/
def maybe_single (b : PostgresQueryBuilder) : PostgresQueryBuilder :=
  { b with maybe_single_flag := true, limit_val := some 1 }

end PostgresQueryBuilder

/-- The negated-condition builder returned by the `not_` property. -/
structure PostgresNotBuilder where
  builder : PostgresQueryBuilder

/-- The `not_` property. -/
def PostgresQueryBuilder.not_ (b : PostgresQueryBuilder) : PostgresNotBuilder := ⟨b⟩

/-- The `not_.is_(column, value)` method: the string `'null'` and
`None` are both turned into `None` before appending `is_not`. -/
def PostgresNotBuilder.is_ (nb : PostgresNotBuilder) (column : String) (value : PyVal) : PostgresQueryBuilder :=
  let value := match value with
    | .vStr s => if s = "null" then PyVal.vNull else PyVal.vStr s
    | .vNull => PyVal.vNull
    | v => v
  { nb.builder with filters := nb.builder.filters ++ [.is_not column value] }

/-- The `not_.in_(column, values)` method. -/
def PostgresNotBuilder.in_ (nb : PostgresNotBuilder) (column : String) (values : List PyVal) : PostgresQueryBuilder :=
  { nb.builder with filters := nb.builder.filters ++ [.not_in column values] }

/-! ### `_build_where_clause` -/

/-- The body of the `for filter_item in self._filters` loop of
`_build_where_clause`, threading the accumulated condition fragments,
parameter list and running placeholder counter `param_idx` exactly as
the source does. -/
def whereLoop : List Filter → List String → List PyVal → Nat →
    List String × List PyVal × Nat
  | [], conditions, params, param_idx => (conditions, params, param_idx)
  | f :: rest, conditions, params, param_idx =>
    match f with
    | .eq column value =>
      whereLoop rest (conditions ++ ["\"" ++ column ++ "\" = $" ++ natToStr param_idx])
        (params ++ [value]) (param_idx + 1)
    | .neq column value =>
      whereLoop rest (conditions ++ ["\"" ++ column ++ "\" != $" ++ natToStr param_idx])
        (params ++ [value]) (param_idx + 1)
    | .gt column value =>
      whereLoop rest (conditions ++ ["\"" ++ column ++ "\" > $" ++ natToStr param_idx])
        (params ++ [value]) (param_idx + 1)
    | .gte column value =>
      whereLoop rest (conditions ++ ["\"" ++ column ++ "\" >= $" ++ natToStr param_idx])
        (params ++ [value]) (param_idx + 1)
    | .lt column value =>
      whereLoop rest (conditions ++ ["\"" ++ column ++ "\" < $" ++ natToStr param_idx])
        (params ++ [value]) (param_idx + 1)
    | .lte column value =>
      whereLoop rest (conditions ++ ["\"" ++ column ++ "\" <= $" ++ natToStr param_idx])
        (params ++ [value]) (param_idx + 1)
    | .like column value =>
      whereLoop rest (conditions ++ ["\"" ++ column ++ "\" LIKE $" ++ natToStr param_idx])
        (params ++ [.vStr value]) (param_idx + 1)
    | .ilike column value =>
      whereLoop rest (conditions ++ ["\"" ++ column ++ "\" ILIKE $" ++ natToStr param_idx])
        (params ++ [.vStr value]) (param_idx + 1)
    | .is column value =>
      match value with
      | .vNull => whereLoop rest (conditions ++ ["\"" ++ column ++ "\" IS NULL"]) params param_idx
      | v =>
        whereLoop rest (conditions ++ ["\"" ++ column ++ "\" IS $" ++ natToStr param_idx])
          (params ++ [v]) (param_idx + 1)
    | .is_not column value =>
      match value with
      | .vNull => whereLoop rest (conditions ++ ["\"" ++ column ++ "\" IS NOT NULL"]) params param_idx
      | v =>
        whereLoop rest (conditions ++ ["\"" ++ column ++ "\" IS NOT $" ++ natToStr param_idx])
          (params ++ [v]) (param_idx + 1)
    | .not_in column value =>
      match value with
      | [] => whereLoop rest (conditions ++ ["TRUE"]) params param_idx
      | vs =>
        let placeholders := joinWith ", "
          ((List.range' param_idx vs.length).map (fun i => "$" ++ natToStr i))
        whereLoop rest (conditions ++ ["\"" ++ column ++ "\" NOT IN (" ++ placeholders ++ ")"])
          (params ++ vs) (param_idx + vs.length)
    | .in_ column value =>
      match value with
      | [] => whereLoop rest (conditions ++ ["FALSE"]) params param_idx
      | vs =>
        let placeholders := joinWith ", "
          ((List.range' param_idx vs.length).map (fun i => "$" ++ natToStr i))
        whereLoop rest (conditions ++ ["\"" ++ column ++ "\" IN (" ++ placeholders ++ ")"])
          (params ++ vs) (param_idx + vs.length)
    | .contains column value =>
      let p := match value with
        | .vStr s => PyVal.vStr s
        | v => PyVal.vStr (pyDumps v)
      whereLoop rest (conditions ++ ["\"" ++ column ++ "\" @> $" ++ natToStr param_idx])
        (params ++ [p]) (param_idx + 1)
    | .contained_by column value =>
      let p := match value with
        | .vStr s => PyVal.vStr s
        | v => PyVal.vStr (pyDumps v)
      whereLoop rest (conditions ++ ["\"" ++ column ++ "\" <@ $" ++ natToStr param_idx])
        (params ++ [p]) (param_idx + 1)
    | .jsonb_eq jsonb_column jsonb_path actual_value =>
      whereLoop rest
        (conditions ++ ["\"" ++ jsonb_column ++ "\"->>\x27" ++ jsonb_path ++ "\x27 = $" ++ natToStr param_idx])
        (params ++ [actual_value]) (param_idx + 1)

/-- The `_build_where_clause` method: returns the `' WHERE ...'` text
and the positional parameter list (empty clause for no filters). -/
def build_where_clause (filters : List Filter) : String × List PyVal :=
  match filters with
  | [] => ("", [])
  | _ =>
    let (conditions, params, _) := whereLoop filters [] [] 1
    (" WHERE " ++ joinWith " AND " conditions, params)

/-! ### `_format_select_fields`, queries and execution -/

/-- The `_format_select_fields` method. -/
def format_select_fields (select_fields : String) : String :=
  if select_fields = "*" then "*"
  else
    let fields := (select_fields.splitOn ",").map String.trim
    let formatted := fields.map (fun f =>
      if f.data.contains '(' || f.data.contains '"' then f else "\"" ++ f ++ "\"")
    joinWith ", " formatted

/-- The quoted `"schema"."table"` name used by every statement. -/
def fullTableName (b : PostgresQueryBuilder) : String :=
  "\"" ++ b.schema_name ++ "\".\"" ++ b.table_name ++ "\""

/-- The SELECT statement text built by `_execute_select` (base query,
ORDER BY, pagination), before it is handed to `conn.fetch`. -/
def selectQuery (b : PostgresQueryBuilder) : String :=
  let fields := format_select_fields b.select_fields
  let (where_clause, _) := build_where_clause b.filters
  let query := "SELECT " ++ fields ++ " FROM " ++ fullTableName b ++ where_clause
  let query :=
    match b.order_by with
    | [] => query
    | obs => query ++ " ORDER BY " ++
        joinWith ", " (obs.map (fun oc => "\"" ++ oc.1 ++ "\" " ++ (if oc.2 then "DESC" else "ASC")))
  match b.range_start, b.range_end with
  | some s, some e => query ++ " LIMIT " ++ intToStr (e - s + 1) ++ " OFFSET " ++ intToStr s
  | _, _ =>
    let query := match b.limit_val with
      | some l => query ++ " LIMIT " ++ intToStr l
      | none => query
    match b.offset_val with
    | some o => query ++ " OFFSET " ++ intToStr o
    | none => query

/-- The `SELECT COUNT(*)` statement issued when `count='exact'`. -/
def countQuery (b : PostgresQueryBuilder) : String :=
  let (where_clause, _) := build_where_clause b.filters
  "SELECT COUNT(*) FROM " ++ fullTableName b ++ where_clause

/-- The `_execute_select` method.  `conn.fetch` plays the role of the
database; raising is `Except.error`. -/
def execute_select (b : PostgresQueryBuilder) (conn : Conn) : Except String PostgresQueryResult :=
  let params := (build_where_clause b.filters).2
  let rows := conn.fetch (selectQuery b) params
  let data := rows
  let count : Int :=
    match b.count_mode with
    | some "exact" =>
      match conn.fetchval (countQuery b) params with
      | some n => if n = 0 then 0 else n
      | none => 0
    | _ => data.length
  if b.single_flag then
    match data with
    | [] => .error ("No rows found in " ++ b.table_name)
    | r :: _ => .ok (mkResult (.one r) count)
  else if b.maybe_single_flag then
    .ok (mkResult (match data with | [] => .null | r :: _ => .one r) count)
  else
    .ok (mkResult (.list data) count)

/-- The per-value coercion inside `_execute_insert`: dict/list values
are JSON-encoded; a naive datetime is tagged UTC; an aware datetime
already equal to `timezone.utc` is kept; any other aware datetime is
converted with `astimezone(timezone.utc)` and rebuilt field-wise with
`tzinfo=timezone.utc`. -/
def insertProcessValue : PyVal → PyVal
  | .vJson j => .vStr (Json.dumps j)
  | .vDatetime v =>
    if v.tz = none then .vDatetime v.replaceTzUTC
    else if v.tz = some 0 then .vDatetime v
    else .vDatetime v.astimezoneUTC
  | v => v

/-- The INSERT statement text built for one payload row. -/
def insertRowQuery (b : PostgresQueryBuilder) (row : Row) : String :=
  let columns := row.map Prod.fst
  let col_names := joinWith ", " (columns.map (fun c => "\"" ++ c ++ "\""))
  let placeholders := joinWith ", " ((List.range columns.length).map (fun i => "$" ++ natToStr (i + 1)))
  let query := "INSERT INTO " ++ fullTableName b ++ " (" ++ col_names ++ ") VALUES (" ++ placeholders ++ ")"
  if b.returning then query ++ " RETURNING *" else query

/-- The `for row in self._data` loop of `_execute_insert`. -/
def insertLoop (b : PostgresQueryBuilder) (conn : Conn) : List Row → List Row → List Row
  | [], results => results
  | row :: rest, results =>
    let processed_values := row.map (fun kv => insertProcessValue kv.2)
    let query := insertRowQuery b row
    if b.returning then
      match conn.fetchrow query processed_values with
      | some r => insertLoop b conn rest (results ++ [r])
      | none => insertLoop b conn rest results
    else
      let _ := conn.exec query processed_values
      insertLoop b conn rest results

/-- The `_execute_insert` method. -/
def execute_insert (b : PostgresQueryBuilder) (conn : Conn) : Except String PostgresQueryResult :=
  if b.data.falsy then .ok (mkResult (.list []) 0)
  else
    match b.data with
    | .rows rs =>
      let results := insertLoop b conn rs []
      .ok (mkResult (.list results) results.length)
    | _ => .error "AttributeError: _data is not a list of rows"

/-- The per-value coercion inside `_execute_update`: dict/list values
are JSON-encoded; a naive datetime is tagged UTC; an aware datetime is
kept as-is (no conversion). -/
def updateProcessValue : PyVal → PyVal
  | .vJson j => .vStr (Json.dumps j)
  | .vDatetime v =>
    if v.tz = none then .vDatetime v.replaceTzUTC
    else .vDatetime v
  | v => v

/-- The `for key, value in self._data.items()` loop of
`_execute_update`: builds the SET fragments and SET parameters with the
running `param_idx` that starts right after the WHERE parameters. -/
def updateLoop : Row → Nat → List String × List PyVal
  | [], _ => ([], [])
  | (key, value) :: rest, param_idx =>
    let (parts, vals) := updateLoop rest (param_idx + 1)
    (("\"" ++ key ++ "\" = $" ++ natToStr param_idx) :: parts,
     updateProcessValue value :: vals)

/-- The UPDATE statement text built by `_execute_update`. -/
def updateQuery (b : PostgresQueryBuilder) (set_parts : List String) (where_clause : String) : String :=
  let query := "UPDATE " ++ fullTableName b ++ " SET " ++ joinWith ", " set_parts ++ where_clause
  if b.returning then query ++ " RETURNING *" else query

/-- Count extraction from an asyncpg status string,
`int(result.split()[-1]) if result else 0` (a malformed status would
raise `ValueError` in Python; no claim exercises that case). -/
def statusCount (result : String) : Int :=
  if result = "" then 0
  else
    match (result.splitOn " ").getLast? with
    | some tok => (tok.toNat?).getD 0
    | none => 0

/-- The statement-building part of `_execute_update`: the UPDATE text
and the full positional parameter list `where_params + set_params`. -/
def updateStatement (b : PostgresQueryBuilder) (kvs : Row) : String × List PyVal :=
  let (where_clause, where_params) := build_where_clause b.filters
  let (set_parts, set_params) := updateLoop kvs (where_params.length + 1)
  (updateQuery b set_parts where_clause, where_params ++ set_params)

/-- The `_execute_update` method. -/
def execute_update (b : PostgresQueryBuilder) (conn : Conn) : Except String PostgresQueryResult :=
  if b.data.falsy then .ok (mkResult (.list []) 0)
  else
    match b.data with
    | .dict kvs =>
      let (query, all_params) := updateStatement b kvs
      if b.returning then
        let data := conn.fetch query all_params
        .ok (mkResult (.list data) data.length)
      else
        let result := conn.exec query all_params
        .ok (mkResult (.list []) (statusCount result))
    | _ => .error "AttributeError: _data is not a dict"

/-- The DELETE statement text built by `_execute_delete`. -/
def deleteQuery (b : PostgresQueryBuilder) : String :=
  let (where_clause, _) := build_where_clause b.filters
  let query := "DELETE FROM " ++ fullTableName b ++ where_clause
  if b.returning then query ++ " RETURNING *" else query

/-- The `_execute_delete` method. -/
def execute_delete (b : PostgresQueryBuilder) (conn : Conn) : Except String PostgresQueryResult :=
  let (_, params) := build_where_clause b.filters
  if b.returning then
    let data := conn.fetch (deleteQuery b) params
    .ok (mkResult (.list data) data.length)
  else
    let result := conn.exec (deleteQuery b) params
    .ok (mkResult (.list []) (statusCount result))

/-- The per-value coercion inside `_execute_upsert` (same code as the
update one: aware datetimes are kept as-is). -/
def upsertProcessValue : PyVal → PyVal
  | .vJson j => .vStr (Json.dumps j)
  | .vDatetime v =>
    if v.tz = none then .vDatetime v.replaceTzUTC
    else .vDatetime v
  | v => v

/-- The UPSERT statement text built for one payload row, including the
exact whitespace of the source's triple-quoted f-string.  `pk` is
`columns[0]` — the row's first declared column, with no reference to
the table's real key (Python raises `IndexError` on an empty row; the
model returns the `""` column there, and the claims quantify over
nonempty rows). -/
def upsertRowQuery (b : PostgresQueryBuilder) (row : Row) : String :=
  let columns := row.map Prod.fst
  let col_names := joinWith ", " (columns.map (fun c => "\"" ++ c ++ "\""))
  let placeholders := joinWith ", " ((List.range columns.length).map (fun i => "$" ++ natToStr (i + 1)))
  let pk := columns.headD ""
  let update_parts := joinWith ", "
    ((columns.drop 1).map (fun c => "\"" ++ c ++ "\" = EXCLUDED.\"" ++ c ++ "\""))
  let query :=
    "\n                INSERT INTO " ++ fullTableName b ++ " (" ++ col_names ++ ") " ++
    "\n                VALUES (" ++ placeholders ++ ")" ++
    "\n                ON CONFLICT (\"" ++ pk ++ "\") DO UPDATE SET " ++ update_parts ++
    "\n            "
  if b.returning then query ++ " RETURNING *" else query

/-- The `for row in self._data` loop of `_execute_upsert`. -/
def upsertLoop (b : PostgresQueryBuilder) (conn : Conn) : List Row → List Row → List Row
  | [], results => results
  | row :: rest, results =>
    let processed_values := row.map (fun kv => upsertProcessValue kv.2)
    let query := upsertRowQuery b row
    if b.returning then
      match conn.fetchrow query processed_values with
      | some r => upsertLoop b conn rest (results ++ [r])
      | none => upsertLoop b conn rest results
    else
      let _ := conn.exec query processed_values
      upsertLoop b conn rest results

/-- The `_execute_upsert` method. -/
def execute_upsert (b : PostgresQueryBuilder) (conn : Conn) : Except String PostgresQueryResult :=
  if b.data.falsy then .ok (mkResult (.list []) 0)
  else
    match b.data with
    | .rows rs =>
      let results := upsertLoop b conn rs []
      .ok (mkResult (.list results) results.length)
    | _ => .error "AttributeError: _data is not a list of rows"

/-- The `execute()` method: with no pool it logs a warning and returns
an empty result without touching any connection; otherwise it acquires
the connection and dispatches on the operation.  The surrounding
`try/except` logs and re-raises, which is the identity on the
`Except` value. -/
def execute (b : PostgresQueryBuilder) : Except String PostgresQueryResult :=
  match b.pool with
  | none => .ok (mkResult (.list []) 0)
  | some conn =>
    match b.operation with
    | .select => execute_select b conn
    | .insert => execute_insert b conn
    | .update => execute_update b conn
    | .delete => execute_delete b conn
    | .upsert => execute_upsert b conn

/-! ## Embedding of the Docker sandbox functions (docker_sandbox.py) -/

/-- A Docker container handle: only its reported status matters to
`delete_sandbox`. -/
structure Container where
  status : String

/-- Errors raised by the container runtime client: `docker.errors.
NotFound` or anything else. -/
inductive DockerErr where
  | notFound
  | other (msg : String)

/-- The container runtime client surface `delete_sandbox` uses:
`containers.get`, `container.stop(timeout)`, and
`container.remove(force)`. -/
structure DockerClient where
  getContainer : String → Except DockerErr Container
  stop : Container → Nat → Except DockerErr Unit
  remove : Container → Bool → Except DockerErr Unit

/-- The `delete_sandbox` coroutine of `docker_sandbox.py`: look the
container up, stop it if running (timeout 10), force-remove it, and
return `True`; a `NotFound` escaping the body is caught and also
returns `True`; any other exception is re-raised after logging. -/
def delete_sandbox (client : DockerClient) (container_id : String) : Except DockerErr Bool :=
  let body : Except DockerErr Unit := do
    let container ← client.getContainer container_id
    let _ ← (if container.status = "running" then client.stop container 10 else pure ())
    client.remove container true
  match body with
  | .ok _ => .ok true
  | .error .notFound => .ok true
  | .error e => .error e

/-- The `delete_sandbox` wrapper of `sandbox.py`: awaits the
docker-level delete, logs on success, and passes the result through. -/
def sandbox_delete_sandbox (client : DockerClient) (sandbox_id : String) : Except DockerErr Bool :=
  delete_sandbox client sandbox_id

/-- The `for port in range(start_port, start_port + max_attempts)` loop
of `_find_available_port`.  `docker_ports` is the published-port set
collected from the Docker client before the scan starts; `bind1 p` /
`bind0 p` tell whether a TCP bind of port `p` on `127.0.0.1` /
`0.0.0.0` succeeds (an `OSError` on either bind is caught and the
candidate skipped).  Alongside the source's result the model returns
the ghost list of candidates on which a bind was attempted, in order,
so that "skipped without being bind-tested" is provable. -/
def findPortLoop (docker_ports : List Nat) (bind1 bind0 : Nat → Bool) (start_port max_attempts : Nat) :
    List Nat → List Nat → Except String Nat × List Nat
  | [], tested =>
    (.error ("Could not find available port starting from " ++ natToStr start_port ++
      " after " ++ natToStr max_attempts ++ " attempts"), tested)
  | port :: rest, tested =>
    if port ∈ docker_ports then
      findPortLoop docker_ports bind1 bind0 start_port max_attempts rest tested
    else if bind1 port then
      if bind0 port then (.ok port, tested ++ [port])
      else findPortLoop docker_ports bind1 bind0 start_port max_attempts rest (tested ++ [port])
    else findPortLoop docker_ports bind1 bind0 start_port max_attempts rest (tested ++ [port])

/-- The `_find_available_port(start_port, max_attempts=100)` function,
its Docker-published-port collection abstracted into the input set and
its socket probes into the two bind oracles. -/
def find_available_port (docker_ports : List Nat) (bind1 bind0 : Nat → Bool)
    (start_port max_attempts : Nat) : Except String Nat × List Nat :=
  findPortLoop docker_ports bind1 bind0 start_port max_attempts
    (List.range' start_port max_attempts) []

/-! ## Lemmas about decimal rendering -/

/-- String extensionality through the underlying character list. -/
theorem strExt (s t : String) (h : s.data = t.data) : s = t := by
  cases s; cases t; simp_all

theorem natToStrGo_acc (fuel : Nat) : ∀ (n : Nat) (acc : List Char),
    natToStrGo fuel n acc = natToStrGo fuel n [] ++ acc := by
  induction fuel with
  | zero => intro n acc; simp [natToStrGo]
  | succ f ih =>
    intro n acc
    by_cases h : n < 10
    · simp [natToStrGo, h]
    · simp only [natToStrGo, if_neg h]
      rw [ih (n / 10) (digitChar (n % 10) :: acc), ih (n / 10) [digitChar (n % 10)]]
      simp

theorem natToStrGo_fuel (n : Nat) : ∀ (fuel fuel' : Nat) (acc : List Char),
    n < fuel → n < fuel' → natToStrGo fuel n acc = natToStrGo fuel' n acc := by
  induction n using Nat.strong_induction_on with
  | _ n ih =>
    intro fuel fuel' acc hf hf'
    match fuel, fuel' with
    | f + 1, f' + 1 =>
      by_cases h : n < 10
      · simp [natToStrGo, h]
      · simp only [natToStrGo, if_neg h]
        have hdiv : n / 10 < n := Nat.div_lt_self (by omega) (by omega)
        exact ih (n / 10) hdiv f f' _ (by omega) (by omega)

theorem natToStr_data_small (n : Nat) (h : n < 10) :
    (natToStr n).data = [digitChar n] := by
  simp [natToStr, natToStrGo, h]

theorem natToStr_data_large (n : Nat) (h : 10 ≤ n) :
    (natToStr n).data = (natToStr (n / 10)).data ++ [digitChar (n % 10)] := by
  have hdiv : n / 10 < n := Nat.div_lt_self (by omega) (by omega)
  show natToStrGo (n + 1) n [] = natToStrGo (n / 10 + 1) (n / 10) [] ++ [digitChar (n % 10)]
  rw [show natToStrGo (n + 1) n [] = natToStrGo n (n / 10) (digitChar (n % 10) :: []) by
    simp [natToStrGo, Nat.not_lt.mpr h]]
  rw [natToStrGo_fuel (n / 10) n (n / 10 + 1) _ (by omega) (by omega)]
  rw [natToStrGo_acc]

theorem digitChar_isDigit (d : Nat) (h : d < 10) : (digitChar d).isDigit = true := by
  revert h; revert d; decide

theorem digitChar_val (d : Nat) (h : d < 10) : (digitChar d).toNat - 48 = d := by
  revert h; revert d; decide

theorem digitChar_ne_dollar (d : Nat) (h : d < 10) : digitChar d ≠ '$' := by
  revert h; revert d; decide

theorem natToStr_all_digits (n : Nat) : ∀ c ∈ (natToStr n).data, c.isDigit = true := by
  induction n using Nat.strong_induction_on with
  | _ n ih =>
    by_cases h : n < 10
    · rw [natToStr_data_small n h]
      intro c hc
      simp at hc
      subst hc
      exact digitChar_isDigit n h
    · rw [natToStr_data_large n (by omega)]
      intro c hc
      rcases List.mem_append.mp hc with hc | hc
      · exact ih (n / 10) (Nat.div_lt_self (by omega) (by omega)) c hc
      · simp at hc
        subst hc
        exact digitChar_isDigit _ (Nat.mod_lt _ (by omega))

theorem natToStr_ne_nil (n : Nat) : (natToStr n).data ≠ [] := by
  by_cases h : n < 10
  · rw [natToStr_data_small n h]; simp
  · rw [natToStr_data_large n (by omega)]; simp

theorem digitsVal_append_one (m : Nat) (xs : List Char) (c : Char) :
    digitsVal m (xs ++ [c]) = 10 * digitsVal m xs + (c.toNat - 48) := by
  simp [digitsVal, List.foldl_append]

theorem natToStr_val (n : Nat) : digitsVal 0 (natToStr n).data = n := by
  induction n using Nat.strong_induction_on with
  | _ n ih =>
    by_cases h : n < 10
    · rw [natToStr_data_small n h]
      simp [digitsVal, digitChar_val n h]
    · rw [natToStr_data_large n (by omega)]
      rw [digitsVal_append_one]
      rw [ih (n / 10) (Nat.div_lt_self (by omega) (by omega))]
      rw [digitChar_val _ (Nat.mod_lt _ (by omega))]
      omega

/-! ## Lemmas about the placeholder scanner -/

theorem headNonDigit_nil : headNonDigit [] := by
  intro c h; cases h

theorem headNonDigit_cons (c : Char) (l : List Char) (h : c.isDigit = false) :
    headNonDigit (c :: l) := by
  intro d hd
  simp only [List.head?_cons, Option.some.injEq] at hd
  subst hd; exact h

theorem headNonDigit_append (l1 l2 : List Char) (h1 : headNonDigit l1) (h2 : headNonDigit l2) :
    headNonDigit (l1 ++ l2) := by
  cases l1 with
  | nil => simpa using h2
  | cons a t =>
    intro c hc
    simp only [List.cons_append, List.head?_cons, Option.some.injEq] at hc
    subst hc
    exact h1 a rfl

theorem phAux_no_dollar (l1 : List Char) (h : ∀ c ∈ l1, c ≠ '$') (l2 : List Char) :
    phAux (l1 ++ l2) .norm = phAux l2 .norm := by
  induction l1 with
  | nil => rfl
  | cons a t ih =>
    have ha : a ≠ '$' := h a (by simp)
    simp only [List.cons_append, phAux, if_neg ha]
    exact ih (fun c hc => h c (by simp [hc]))

theorem phAux_digits (ds : List Char) : ∀ (m : Nat) (l2 : List Char),
    (∀ c ∈ ds, c.isDigit = true) →
    phAux (ds ++ l2) (.num m) = phAux l2 (.num (digitsVal m ds)) := by
  induction ds with
  | nil => intro m l2 _; rfl
  | cons a t ih =>
    intro m l2 h
    have ha : a.isDigit = true := h a (by simp)
    simp only [List.cons_append, phAux, if_pos ha]
    exact ih (10 * m + (a.toNat - 48)) l2 (fun c hc => h c (by simp [hc]))

theorem phAux_flush (l2 : List Char) (h : headNonDigit l2) (n : Nat) :
    phAux l2 (.num n) = n :: phAux l2 .norm := by
  cases l2 with
  | nil => rfl
  | cons c rest =>
    have hc : c.isDigit = false := h c rfl
    by_cases hd : c = '$'
    · subst hd; simp [phAux, hc]
    · simp [phAux, hc, hd]

theorem phAux_token (n : Nat) (l2 : List Char) (h : headNonDigit l2) :
    phAux ('$' :: (natToStr n).data ++ l2) .norm = n :: phAux l2 .norm := by
  obtain ⟨c, cs, hcs⟩ : ∃ c cs, (natToStr n).data = c :: cs := by
    cases hh : (natToStr n).data with
    | nil => exact absurd hh (natToStr_ne_nil n)
    | cons c cs => exact ⟨c, cs, rfl⟩
  have hdig := natToStr_all_digits n
  rw [hcs] at hdig
  have hc : c.isDigit = true := hdig c (by simp)
  have hval : digitsVal (c.toNat - 48) cs = n := by
    have hv := natToStr_val n
    rw [hcs] at hv
    simpa [digitsVal] using hv
  rw [hcs]
  show phAux ('$' :: (c :: cs ++ l2)) .norm = n :: phAux l2 .norm
  rw [show phAux ('$' :: (c :: cs ++ l2)) .norm = phAux (c :: cs ++ l2) .dollar by simp [phAux]]
  rw [show phAux (c :: cs ++ l2) .dollar = phAux (cs ++ l2) (.num (c.toNat - 48)) by
    simp [phAux, hc]]
  rw [phAux_digits cs (c.toNat - 48) l2 (fun d hd => hdig d (by simp [hd]))]
  rw [hval]
  exact phAux_flush l2 h n

/-- Shape of a SQL text chunk as the scanner sees it: followed by any
non-digit-headed continuation, it contributes exactly the placeholder
numbers `idx, idx+1, ..., idx+k-1`, in order. -/
def PhL (l : List Char) (idx k : Nat) : Prop :=
  ∀ l2, headNonDigit l2 → phAux (l ++ l2) .norm = List.range' idx k ++ phAux l2 .norm

theorem range'_glue (s m n : Nat) :
    List.range' s m ++ List.range' (s + m) n = List.range' s (m + n) := by
  simp [Nat.add_comm]

theorem PhL.zero (l : List Char) (h : ∀ c ∈ l, c ≠ '$') (idx : Nat) : PhL l idx 0 := by
  intro l2 h2
  rw [phAux_no_dollar l h l2]
  simp

theorem PhL.append {l1 l2 : List Char} {idx k1 k2 : Nat}
    (h1 : PhL l1 idx k1) (h2 : PhL l2 (idx + k1) k2) (hh : headNonDigit l2) :
    PhL (l1 ++ l2) idx (k1 + k2) := by
  intro l3 h3
  rw [List.append_assoc]
  rw [h1 (l2 ++ l3) (headNonDigit_append _ _ hh h3)]
  rw [h2 l3 h3]
  rw [← List.append_assoc]
  rw [range'_glue]

theorem PhL_pre_tok (pre : List Char) (h : ∀ c ∈ pre, c ≠ '$') (idx : Nat) :
    PhL (pre ++ '$' :: (natToStr idx).data) idx 1 := by
  intro l2 h2
  rw [List.append_assoc]
  rw [phAux_no_dollar pre h]
  rw [show ('$' :: (natToStr idx).data) ++ l2 = '$' :: (natToStr idx).data ++ l2 by simp]
  rw [phAux_token idx l2 h2]
  rfl

/-- A well-behaved condition fragment: it contributes exactly the
placeholders `idx..idx+k-1` and does not start with a digit. -/
def FragOk (s : String) (idx k : Nat) : Prop :=
  PhL s.data idx k ∧ headNonDigit s.data

theorem FragOk_pre_tok (s : String) (idx : Nat) (pre : List Char)
    (hdata : s.data = pre ++ '$' :: (natToStr idx).data)
    (hpre : ∀ c ∈ pre, c ≠ '$')
    (hph : headNonDigit pre) :
    FragOk s idx 1 := by
  constructor
  · rw [hdata]; exact PhL_pre_tok pre hpre idx
  · rw [hdata]
    exact headNonDigit_append _ _ hph (headNonDigit_cons _ _ (by decide))

theorem FragOk_lit (s : String) (idx : Nat) (h : ∀ c ∈ s.data, c ≠ '$')
    (hh : headNonDigit s.data) : FragOk s idx 0 :=
  ⟨PhL.zero _ h _, hh⟩

theorem data_one_quote : (String.data "\"") = ['"'] := rfl

theorem no_dollar_cons (a : Char) (l : List Char) (ha : a ≠ '$') (h : ∀ c ∈ l, c ≠ '$') :
    ∀ c ∈ a :: l, c ≠ '$' := by
  intro c hc
  rcases List.mem_cons.mp hc with hc | hc
  · subst hc; exact ha
  · exact h c hc

theorem no_dollar_append (l1 l2 : List Char) (h1 : ∀ c ∈ l1, c ≠ '$') (h2 : ∀ c ∈ l2, c ≠ '$') :
    ∀ c ∈ l1 ++ l2, c ≠ '$' := by
  intro c hc
  rcases List.mem_append.mp hc with hc | hc
  · exact h1 c hc
  · exact h2 c hc

theorem FragOk_op1 (column mid : String) (idx : Nat) (hcol : dollarFree column)
    (mp : List Char) (hmid : mid.data = mp ++ ['$']) (hmp : ∀ c ∈ mp, c ≠ '$') :
    FragOk ("\"" ++ column ++ mid ++ natToStr idx) idx 1 := by
  apply FragOk_pre_tok _ _ ('"' :: (column.data ++ mp))
  · simp [String.data_append, data_one_quote, hmid, List.append_assoc]
  · intro c hc
    simp only [List.mem_cons, List.mem_append] at hc
    rcases hc with hc | hc | hc
    · subst hc; decide
    · exact hcol c hc
    · exact hmp c hc
  · exact headNonDigit_cons _ _ (by decide)

theorem FragOk_jsonb (col path : String) (idx : Nat)
    (hcol : dollarFree col) (hpath : dollarFree path) :
    FragOk ("\"" ++ col ++ "\"->>\x27" ++ path ++ "\x27 = $" ++ natToStr idx) idx 1 := by
  apply FragOk_pre_tok _ _
    ('"' :: (col.data ++ (['"', '-', '>', '>', '\x27'] ++ (path.data ++ ['\x27', ' ', '=', ' ']))))
  · have e2 : (String.data "\"->>\x27") = ['"', '-', '>', '>', '\x27'] := rfl
    have e3 : (String.data "\x27 = $") = ['\x27', ' ', '=', ' ', '$'] := rfl
    simp [String.data_append, data_one_quote, e2, e3, List.append_assoc]
  · exact no_dollar_cons _ _ (by decide)
      (no_dollar_append _ _ hcol
        (no_dollar_append _ _ (by decide)
          (no_dollar_append _ _ hpath (by decide))))
  · exact headNonDigit_cons _ _ (by decide)

theorem FragOk_zero_quoted (column suf : String) (idx : Nat) (hcol : dollarFree column)
    (hsuf : ∀ c ∈ suf.data, c ≠ '$') :
    FragOk ("\"" ++ column ++ suf) idx 0 := by
  constructor
  · apply PhL.zero
    intro c hc
    simp only [String.data_append, data_one_quote, List.mem_append, List.mem_cons] at hc
    rcases hc with (hc | hc) | hc
    · simp at hc; subst hc; decide
    · exact hcol c hc
    · exact hsuf c hc
  · have : (("\"" ++ column ++ suf).data) = '"' :: (column.data ++ suf.data) := by
      simp [String.data_append, data_one_quote]
    rw [this]
    exact headNonDigit_cons _ _ (by decide)

theorem data_dollar_nat (n : Nat) : ("$" ++ natToStr n).data = '$' :: (natToStr n).data := by
  rw [String.data_append]
  rfl

theorem range'_cons (s n : Nat) : List.range' s (n + 1) = s :: List.range' (s + 1) n := by
  simp [List.range']

theorem ph_list_head (idx k : Nat) :
    headNonDigit (joinWith ", " ((List.range' idx k).map (fun i => "$" ++ natToStr i))).data := by
  cases k with
  | zero => intro c h; cases h
  | succ k' =>
    rw [range'_cons, List.map_cons]
    cases hm : (List.range' (idx + 1) k').map (fun i => "$" ++ natToStr i) with
    | nil =>
      show headNonDigit (("$" ++ natToStr idx).data)
      rw [data_dollar_nat]
      exact headNonDigit_cons _ _ (by decide)
    | cons y t =>
      show headNonDigit ((("$" ++ natToStr idx) ++ ", " ++ joinWith ", " (y :: t)).data)
      have : ((("$" ++ natToStr idx) ++ ", " ++ joinWith ", " (y :: t)).data)
          = '$' :: ((natToStr idx).data ++ ((String.data ", ") ++ (joinWith ", " (y :: t)).data)) := by
        simp [String.data_append, data_dollar_nat, List.append_assoc]
      rw [this]
      exact headNonDigit_cons _ _ (by decide)

theorem PhL_tok (idx : Nat) : PhL ('$' :: (natToStr idx).data) idx 1 := by
  have := PhL_pre_tok [] (by intro c hc; cases hc) idx
  simpa using this

theorem PhL_ph_list : ∀ (k idx : Nat), 1 ≤ k →
    PhL (joinWith ", " ((List.range' idx k).map (fun i => "$" ++ natToStr i))).data idx k := by
  intro k
  induction k with
  | zero => intro idx h; omega
  | succ k' ih =>
    intro idx _
    rw [range'_cons, List.map_cons]
    cases k' with
    | zero =>
      show PhL (("$" ++ natToStr idx).data) idx 1
      rw [data_dollar_nat]
      exact PhL_tok idx
    | succ k'' =>
      obtain ⟨y, t, hyt⟩ : ∃ y t,
          (List.range' (idx + 1) (k'' + 1)).map (fun i => "$" ++ natToStr i) = y :: t := by
        rw [range'_cons, List.map_cons]
        exact ⟨_, _, rfl⟩
      rw [hyt]
      show PhL ((("$" ++ natToStr idx) ++ ", " ++ joinWith ", " (y :: t)).data) idx (k'' + 1 + 1)
      have hdata : ((("$" ++ natToStr idx) ++ ", " ++ joinWith ", " (y :: t)).data)
          = ('$' :: (natToStr idx).data) ++ ((String.data ", ") ++ (joinWith ", " (y :: t)).data) := by
        simp [String.data_append, data_dollar_nat, List.append_assoc]
      rw [hdata]
      have h2 : PhL (String.data ", ") (idx + 1) 0 := PhL.zero _ (by decide) _
      have h3 : PhL (joinWith ", " (y :: t)).data (idx + 1 + 0) (k'' + 1) := by
        rw [← hyt]
        simpa using ih (idx + 1) (by omega)
      have hh3 : headNonDigit (joinWith ", " (y :: t)).data := by
        rw [← hyt]
        exact ph_list_head (idx + 1) (k'' + 1)
      have hcomb := PhL.append h2 h3 hh3
      rw [Nat.zero_add] at hcomb
      have hfin := PhL.append (PhL_tok idx) hcomb (headNonDigit_append _ _ (by decide) hh3)
      have he : 1 + (k'' + 1) = k'' + 1 + 1 := by omega
      rw [he] at hfin
      exact hfin

theorem joinWith_snoc (sep x : String) : ∀ (l : List String), l ≠ [] →
    joinWith sep (l ++ [x]) = joinWith sep l ++ sep ++ x := by
  intro l
  induction l with
  | nil => intro h; cases h rfl
  | cons a t ih =>
    intro _
    cases t with
    | nil => rfl
    | cons b t' =>
      show a ++ sep ++ joinWith sep ((b :: t') ++ [x]) = (a ++ sep ++ joinWith sep (b :: t')) ++ sep ++ x
      rw [ih (by simp)]
      simp [String.append_assoc]

theorem PhL_join_snoc (conds : List String) (frag : String) (n k : Nat)
    (h1 : PhL (joinWith " AND " conds).data 1 n)
    (hh1 : headNonDigit (joinWith " AND " conds).data)
    (h2 : FragOk frag (n + 1) k) :
    PhL (joinWith " AND " (conds ++ [frag])).data 1 (n + k) ∧
    headNonDigit (joinWith " AND " (conds ++ [frag])).data := by
  cases conds with
  | nil =>
    have hn : n = 0 := by
      have h := h1 [] headNonDigit_nil
      simp only [joinWith] at h
      simp [phAux] at h
      omega
    subst hn
    show PhL (joinWith " AND " [frag]).data 1 (0 + k) ∧ headNonDigit (joinWith " AND " [frag]).data
    have hj : joinWith " AND " [frag] = frag := rfl
    rw [hj]
    exact ⟨by simpa using h2.1, h2.2⟩
  | cons a t =>
    rw [joinWith_snoc _ _ _ (by simp)]
    have hdata : ((joinWith " AND " (a :: t) ++ " AND " ++ frag).data)
        = (joinWith " AND " (a :: t)).data ++ ((String.data " AND ") ++ frag.data) := by
      simp [String.data_append, List.append_assoc]
    constructor
    · rw [hdata]
      have hmid : PhL (String.data " AND ") (1 + n) 0 := PhL.zero _ (by decide) _
      have hfrag : PhL frag.data (1 + n + 0) k := by
        have h := h2.1
        have he : 1 + n + 0 = n + 1 := by omega
        rw [he]
        exact h
      have hin := PhL.append hmid hfrag h2.2
      rw [Nat.zero_add] at hin
      have hfin := PhL.append h1 hin (headNonDigit_append _ _ (by decide) h2.2)
      exact hfin
    · rw [hdata]
      exact headNonDigit_append _ _ hh1 (headNonDigit_append _ _ (by decide) h2.2)

theorem FragOk_in (column kw : String) (idx k : Nat) (hcol : dollarFree column) (hk : 1 ≤ k)
    (kp : List Char) (hkw : kw.data = kp) (hkp : ∀ c ∈ kp, c ≠ '$') :
    FragOk ("\"" ++ column ++ kw ++
      joinWith ", " ((List.range' idx k).map (fun i => "$" ++ natToStr i)) ++ ")") idx k := by
  have hdata : (("\"" ++ column ++ kw ++
      joinWith ", " ((List.range' idx k).map (fun i => "$" ++ natToStr i)) ++ ")").data)
      = ('"' :: (column.data ++ kp)) ++
        ((joinWith ", " ((List.range' idx k).map (fun i => "$" ++ natToStr i))).data ++ [')']) := by
    have hr : (String.data ")") = [')'] := rfl
    simp [String.data_append, data_one_quote, hkw, hr, List.append_assoc]
  constructor
  · rw [hdata]
    have hpre : PhL ('"' :: (column.data ++ kp)) idx 0 :=
      PhL.zero _ (no_dollar_cons _ _ (by decide) (no_dollar_append _ _ hcol hkp)) _
    have hlist : PhL (joinWith ", " ((List.range' idx k).map (fun i => "$" ++ natToStr i))).data
        (idx + 0) k := by
      simpa using PhL_ph_list k idx hk
    have hpar : PhL [')'] (idx + 0 + k) 0 := PhL.zero _ (by decide) _
    have hin := PhL.append hlist hpar (headNonDigit_cons _ _ (by decide))
    have hfin := PhL.append hpre (by simpa using hin)
      (headNonDigit_append _ _ (ph_list_head idx k) (headNonDigit_cons _ _ (by decide)))
    simpa using hfin
  · rw [hdata]
    exact headNonDigit_cons _ _ (by decide)

/-- Hygiene of identifiers spliced into SQL text: the column (and, for
`jsonb_eq`, the path) contain no `$` character, so the scanner's
placeholder reading is exact.  Every call site in the repository uses
fixed `$`-free identifiers. -/
def Filter.clean : Filter → Prop
  | .jsonb_eq c p _ => dollarFree c ∧ dollarFree p
  | .eq c _ => dollarFree c
  | .neq c _ => dollarFree c
  | .gt c _ => dollarFree c
  | .gte c _ => dollarFree c
  | .lt c _ => dollarFree c
  | .lte c _ => dollarFree c
  | .like c _ => dollarFree c
  | .ilike c _ => dollarFree c
  | .is c _ => dollarFree c
  | .is_not c _ => dollarFree c
  | .in_ c _ => dollarFree c
  | .not_in c _ => dollarFree c
  | .contains c _ => dollarFree c
  | .contained_by c _ => dollarFree c

instance (f : Filter) : Decidable f.clean := by
  cases f <;> simp only [Filter.clean] <;> infer_instance

/-- The number of positional parameters a filter binds, as the claims
word it: one per filter, except `is`/`is_not` on `NULL` (zero) and
`in`/`not_in` (one per list element). -/
def Filter.paramCount : Filter → Nat
  | .is _ v => match v with | .vNull => 0 | _ => 1
  | .is_not _ v => match v with | .vNull => 0 | _ => 1
  | .in_ _ vs => vs.length
  | .not_in _ vs => vs.length
  | _ => 1

/-- Total parameter count of a filter chain. -/
def paramCountOf (fs : List Filter) : Nat := (fs.map Filter.paramCount).sum

theorem whereLoop_params_len : ∀ (fs : List Filter) (conds : List String) (params : List PyVal)
    (idx : Nat), (whereLoop fs conds params idx).2.1.length = params.length + paramCountOf fs := by
  intro fs
  induction fs with
  | nil => intro conds params idx; simp [whereLoop, paramCountOf]
  | cons f rest ih =>
    intro conds params idx
    cases f <;> simp only [whereLoop] <;> (try split) <;>
      simp [ih, paramCountOf, Filter.paramCount] <;> omega

theorem whereLoop_idx : ∀ (fs : List Filter) (conds : List String) (params : List PyVal)
    (idx : Nat), (whereLoop fs conds params idx).2.2 = idx + paramCountOf fs := by
  intro fs
  induction fs with
  | nil => intro conds params idx; simp [whereLoop, paramCountOf]
  | cons f rest ih =>
    intro conds params idx
    cases f <;> simp only [whereLoop] <;> (try split) <;>
      simp [ih, paramCountOf, Filter.paramCount] <;> omega

theorem whereLoop_ph : ∀ (fs : List Filter) (conds : List String) (params : List PyVal) (idx : Nat),
    (∀ f ∈ fs, f.clean) → idx = params.length + 1 →
    PhL (joinWith " AND " conds).data 1 params.length →
    headNonDigit (joinWith " AND " conds).data →
    PhL (joinWith " AND " (whereLoop fs conds params idx).1).data 1
      (whereLoop fs conds params idx).2.1.length ∧
    headNonDigit (joinWith " AND " (whereLoop fs conds params idx).1).data := by
  intro fs
  induction fs with
  | nil =>
    intro conds params idx _ _ hph hhd
    exact ⟨hph, hhd⟩
  | cons f rest ih =>
    intro conds params idx hcl hidx hph hhd
    have hfc := hcl f (by simp)
    have hrest : ∀ g ∈ rest, g.clean := fun g hg => hcl g (by simp [hg])
    cases f with
    | eq column value =>
      subst hidx
      obtain ⟨hph2, hhd2⟩ := PhL_join_snoc conds _ params.length 1 hph hhd
        (FragOk_op1 column "\" = $" (params.length + 1) hfc ['"', ' ', '=', ' '] rfl (by decide))
      exact ih _ _ _ hrest (by simp) (by simpa using hph2) hhd2
    | neq column value =>
      subst hidx
      obtain ⟨hph2, hhd2⟩ := PhL_join_snoc conds _ params.length 1 hph hhd
        (FragOk_op1 column "\" != $" (params.length + 1) hfc ['"', ' ', '!', '=', ' '] rfl (by decide))
      exact ih _ _ _ hrest (by simp) (by simpa using hph2) hhd2
    | gt column value =>
      subst hidx
      obtain ⟨hph2, hhd2⟩ := PhL_join_snoc conds _ params.length 1 hph hhd
        (FragOk_op1 column "\" > $" (params.length + 1) hfc ['"', ' ', '>', ' '] rfl (by decide))
      exact ih _ _ _ hrest (by simp) (by simpa using hph2) hhd2
    | gte column value =>
      subst hidx
      obtain ⟨hph2, hhd2⟩ := PhL_join_snoc conds _ params.length 1 hph hhd
        (FragOk_op1 column "\" >= $" (params.length + 1) hfc ['"', ' ', '>', '=', ' '] rfl (by decide))
      exact ih _ _ _ hrest (by simp) (by simpa using hph2) hhd2
    | lt column value =>
      subst hidx
      obtain ⟨hph2, hhd2⟩ := PhL_join_snoc conds _ params.length 1 hph hhd
        (FragOk_op1 column "\" < $" (params.length + 1) hfc ['"', ' ', '<', ' '] rfl (by decide))
      exact ih _ _ _ hrest (by simp) (by simpa using hph2) hhd2
    | lte column value =>
      subst hidx
      obtain ⟨hph2, hhd2⟩ := PhL_join_snoc conds _ params.length 1 hph hhd
        (FragOk_op1 column "\" <= $" (params.length + 1) hfc ['"', ' ', '<', '=', ' '] rfl (by decide))
      exact ih _ _ _ hrest (by simp) (by simpa using hph2) hhd2
    | like column pattern =>
      subst hidx
      obtain ⟨hph2, hhd2⟩ := PhL_join_snoc conds _ params.length 1 hph hhd
        (FragOk_op1 column "\" LIKE $" (params.length + 1) hfc
          ['"', ' ', 'L', 'I', 'K', 'E', ' '] rfl (by decide))
      exact ih _ _ _ hrest (by simp) (by simpa using hph2) hhd2
    | ilike column pattern =>
      subst hidx
      obtain ⟨hph2, hhd2⟩ := PhL_join_snoc conds _ params.length 1 hph hhd
        (FragOk_op1 column "\" ILIKE $" (params.length + 1) hfc
          ['"', ' ', 'I', 'L', 'I', 'K', 'E', ' '] rfl (by decide))
      exact ih _ _ _ hrest (by simp) (by simpa using hph2) hhd2
    | is column value =>
      subst hidx
      cases value with
      | vNull =>
        obtain ⟨hph2, hhd2⟩ := PhL_join_snoc conds _ params.length 0 hph hhd
          (FragOk_zero_quoted column "\" IS NULL" (params.length + 1) hfc (by decide))
        exact ih _ _ _ hrest (by simp) (by simpa using hph2) hhd2
      | vBool b =>
        obtain ⟨hph2, hhd2⟩ := PhL_join_snoc conds _ params.length 1 hph hhd
          (FragOk_op1 column "\" IS $" (params.length + 1) hfc ['"', ' ', 'I', 'S', ' '] rfl (by decide))
        exact ih _ _ _ hrest (by simp) (by simpa using hph2) hhd2
      | vInt i =>
        obtain ⟨hph2, hhd2⟩ := PhL_join_snoc conds _ params.length 1 hph hhd
          (FragOk_op1 column "\" IS $" (params.length + 1) hfc ['"', ' ', 'I', 'S', ' '] rfl (by decide))
        exact ih _ _ _ hrest (by simp) (by simpa using hph2) hhd2
      | vStr s =>
        obtain ⟨hph2, hhd2⟩ := PhL_join_snoc conds _ params.length 1 hph hhd
          (FragOk_op1 column "\" IS $" (params.length + 1) hfc ['"', ' ', 'I', 'S', ' '] rfl (by decide))
        exact ih _ _ _ hrest (by simp) (by simpa using hph2) hhd2
      | vDatetime d =>
        obtain ⟨hph2, hhd2⟩ := PhL_join_snoc conds _ params.length 1 hph hhd
          (FragOk_op1 column "\" IS $" (params.length + 1) hfc ['"', ' ', 'I', 'S', ' '] rfl (by decide))
        exact ih _ _ _ hrest (by simp) (by simpa using hph2) hhd2
      | vJson j =>
        obtain ⟨hph2, hhd2⟩ := PhL_join_snoc conds _ params.length 1 hph hhd
          (FragOk_op1 column "\" IS $" (params.length + 1) hfc ['"', ' ', 'I', 'S', ' '] rfl (by decide))
        exact ih _ _ _ hrest (by simp) (by simpa using hph2) hhd2
    | is_not column value =>
      subst hidx
      cases value with
      | vNull =>
        obtain ⟨hph2, hhd2⟩ := PhL_join_snoc conds _ params.length 0 hph hhd
          (FragOk_zero_quoted column "\" IS NOT NULL" (params.length + 1) hfc (by decide))
        exact ih _ _ _ hrest (by simp) (by simpa using hph2) hhd2
      | vBool b =>
        obtain ⟨hph2, hhd2⟩ := PhL_join_snoc conds _ params.length 1 hph hhd
          (FragOk_op1 column "\" IS NOT $" (params.length + 1) hfc
            ['"', ' ', 'I', 'S', ' ', 'N', 'O', 'T', ' '] rfl (by decide))
        exact ih _ _ _ hrest (by simp) (by simpa using hph2) hhd2
      | vInt i =>
        obtain ⟨hph2, hhd2⟩ := PhL_join_snoc conds _ params.length 1 hph hhd
          (FragOk_op1 column "\" IS NOT $" (params.length + 1) hfc
            ['"', ' ', 'I', 'S', ' ', 'N', 'O', 'T', ' '] rfl (by decide))
        exact ih _ _ _ hrest (by simp) (by simpa using hph2) hhd2
      | vStr s =>
        obtain ⟨hph2, hhd2⟩ := PhL_join_snoc conds _ params.length 1 hph hhd
          (FragOk_op1 column "\" IS NOT $" (params.length + 1) hfc
            ['"', ' ', 'I', 'S', ' ', 'N', 'O', 'T', ' '] rfl (by decide))
        exact ih _ _ _ hrest (by simp) (by simpa using hph2) hhd2
      | vDatetime d =>
        obtain ⟨hph2, hhd2⟩ := PhL_join_snoc conds _ params.length 1 hph hhd
          (FragOk_op1 column "\" IS NOT $" (params.length + 1) hfc
            ['"', ' ', 'I', 'S', ' ', 'N', 'O', 'T', ' '] rfl (by decide))
        exact ih _ _ _ hrest (by simp) (by simpa using hph2) hhd2
      | vJson j =>
        obtain ⟨hph2, hhd2⟩ := PhL_join_snoc conds _ params.length 1 hph hhd
          (FragOk_op1 column "\" IS NOT $" (params.length + 1) hfc
            ['"', ' ', 'I', 'S', ' ', 'N', 'O', 'T', ' '] rfl (by decide))
        exact ih _ _ _ hrest (by simp) (by simpa using hph2) hhd2
    | not_in column values =>
      subst hidx
      cases values with
      | nil =>
        obtain ⟨hph2, hhd2⟩ := PhL_join_snoc conds _ params.length 0 hph hhd
          (FragOk_lit "TRUE" (params.length + 1) (by decide) (by decide))
        exact ih _ _ _ hrest (by simp) (by simpa using hph2) hhd2
      | cons v t =>
        obtain ⟨hph2, hhd2⟩ := PhL_join_snoc conds _ params.length (v :: t).length hph hhd
          (FragOk_in column "\" NOT IN (" (params.length + 1) (v :: t).length hfc (by simp)
            ['"', ' ', 'N', 'O', 'T', ' ', 'I', 'N', ' ', '('] rfl (by decide))
        exact ih _ _ _ hrest (by simp; omega) (by simpa using hph2) hhd2
    | in_ column values =>
      subst hidx
      cases values with
      | nil =>
        obtain ⟨hph2, hhd2⟩ := PhL_join_snoc conds _ params.length 0 hph hhd
          (FragOk_lit "FALSE" (params.length + 1) (by decide) (by decide))
        exact ih _ _ _ hrest (by simp) (by simpa using hph2) hhd2
      | cons v t =>
        obtain ⟨hph2, hhd2⟩ := PhL_join_snoc conds _ params.length (v :: t).length hph hhd
          (FragOk_in column "\" IN (" (params.length + 1) (v :: t).length hfc (by simp)
            ['"', ' ', 'I', 'N', ' ', '('] rfl (by decide))
        exact ih _ _ _ hrest (by simp; omega) (by simpa using hph2) hhd2
    | contains column value =>
      subst hidx
      obtain ⟨hph2, hhd2⟩ := PhL_join_snoc conds _ params.length 1 hph hhd
        (FragOk_op1 column "\" @> $" (params.length + 1) hfc ['"', ' ', '@', '>', ' '] rfl (by decide))
      exact ih _ _ _ hrest (by simp) (by simpa using hph2) hhd2
    | contained_by column value =>
      subst hidx
      obtain ⟨hph2, hhd2⟩ := PhL_join_snoc conds _ params.length 1 hph hhd
        (FragOk_op1 column "\" <@ $" (params.length + 1) hfc ['"', ' ', '<', '@', ' '] rfl (by decide))
      exact ih _ _ _ hrest (by simp) (by simpa using hph2) hhd2
    | jsonb_eq jsonb_column jsonb_path value =>
      subst hidx
      obtain ⟨hph2, hhd2⟩ := PhL_join_snoc conds _ params.length 1 hph hhd
        (FragOk_jsonb jsonb_column jsonb_path (params.length + 1) hfc.1 hfc.2)
      exact ih _ _ _ hrest (by simp) (by simpa using hph2) hhd2

theorem phAux_nil_of_no_dollar (l : List Char) (h : ∀ c ∈ l, c ≠ '$') :
    phAux l .norm = [] := by
  have := phAux_no_dollar l h []
  simpa using this

/-- Combined WHERE-clause characterization: the parameter list length
matches the claims' counting formula, the clause text contributes
exactly the placeholders `$1..$k` in order, and the clause does not
start with a digit. -/
theorem build_where_spec (fs : List Filter) (h : ∀ f ∈ fs, f.clean) :
    (build_where_clause fs).2.length = paramCountOf fs ∧
    PhL ((build_where_clause fs).1).data 1 (build_where_clause fs).2.length ∧
    headNonDigit ((build_where_clause fs).1).data := by
  cases fs with
  | nil =>
    refine ⟨rfl, ?_, by decide⟩
    exact PhL.zero _ (by decide) _
  | cons f rest =>
    have hl := whereLoop_params_len (f :: rest) [] [] 1
    have hp := whereLoop_ph (f :: rest) [] [] 1 h rfl (PhL.zero _ (by decide) _) (by decide)
    refine ⟨by simpa using hl, ?_, ?_⟩
    · show PhL ((" WHERE " ++ joinWith " AND " (whereLoop (f :: rest) [] [] 1).1).data) 1
        (whereLoop (f :: rest) [] [] 1).2.1.length
      have hdata : ((" WHERE " ++ joinWith " AND " (whereLoop (f :: rest) [] [] 1).1).data)
          = (String.data " WHERE ") ++ (joinWith " AND " (whereLoop (f :: rest) [] [] 1).1).data := by
        simp [String.data_append]
      rw [hdata]
      have hpre : PhL (String.data " WHERE ") 1 0 := PhL.zero _ (by decide) _
      have hfin := PhL.append hpre hp.1 hp.2
      simpa using hfin
    · show headNonDigit ((" WHERE " ++ joinWith " AND " (whereLoop (f :: rest) [] [] 1).1).data)
      have hdata : ((" WHERE " ++ joinWith " AND " (whereLoop (f :: rest) [] [] 1).1).data)
          = (String.data " WHERE ") ++ (joinWith " AND " (whereLoop (f :: rest) [] [] 1).1).data := by
        simp [String.data_append]
      rw [hdata]
      exact headNonDigit_append _ _ (by decide) hp.2

/-- The SET-clause loop of `_execute_update` produces one fragment per
payload key (placeholders running consecutively from `startIdx`) and
the processed payload values in payload order. -/
theorem updateLoop_spec : ∀ (kvs : Row) (startIdx : Nat), (∀ kv ∈ kvs, dollarFree kv.1) →
    (updateLoop kvs startIdx).1.length = kvs.length ∧
    (updateLoop kvs startIdx).2 = kvs.map (fun kv => updateProcessValue kv.2) ∧
    PhL (joinWith ", " (updateLoop kvs startIdx).1).data startIdx kvs.length ∧
    headNonDigit (joinWith ", " (updateLoop kvs startIdx).1).data := by
  intro kvs
  induction kvs with
  | nil =>
    intro startIdx _
    refine ⟨rfl, rfl, ?_, ?_⟩
    · show PhL (joinWith ", " []).data startIdx 0
      exact PhL.zero _ (by decide) _
    · show headNonDigit (joinWith ", " []).data
      decide
  | cons kv rest ih =>
    intro startIdx hkeys
    obtain ⟨k, v⟩ := kv
    have hk : dollarFree k := hkeys (k, v) (by simp)
    have hrest := ih (startIdx + 1) (fun kv hkv => hkeys kv (by simp [hkv]))
    have hfrag : FragOk ("\"" ++ k ++ "\" = $" ++ natToStr startIdx) startIdx 1 :=
      FragOk_op1 k "\" = $" startIdx hk ['"', ' ', '=', ' '] rfl (by decide)
    cases rest with
    | nil =>
      refine ⟨rfl, rfl, ?_, ?_⟩
      · show PhL (("\"" ++ k ++ "\" = $" ++ natToStr startIdx).data) startIdx 1
        exact hfrag.1
      · exact hfrag.2
    | cons r t =>
      obtain ⟨p, ps, hp⟩ : ∃ p ps, (updateLoop (r :: t) (startIdx + 1)).1 = p :: ps :=
        ⟨_, _, rfl⟩
      have hred1 : (updateLoop ((k, v) :: r :: t) startIdx).1
          = ("\"" ++ k ++ "\" = $" ++ natToStr startIdx) :: (updateLoop (r :: t) (startIdx + 1)).1 := rfl
      have hred2 : (updateLoop ((k, v) :: r :: t) startIdx).2
          = updateProcessValue v :: (updateLoop (r :: t) (startIdx + 1)).2 := rfl
      refine ⟨?_, ?_, ?_, ?_⟩
      · rw [hred1]
        simp [hrest.1]
      · rw [hred2, hrest.2.1]
        simp
      · rw [hred1, hp]
        simp only [joinWith]
        have hdata : ((("\"" ++ k ++ "\" = $" ++ natToStr startIdx) ++ ", " ++ joinWith ", " (p :: ps)).data)
            = ("\"" ++ k ++ "\" = $" ++ natToStr startIdx).data ++
              ((String.data ", ") ++ (joinWith ", " (p :: ps)).data) := by
          simp [String.data_append, List.append_assoc]
        rw [hdata]
        have hmid : PhL (String.data ", ") (startIdx + 1) 0 := PhL.zero _ (by decide) _
        have hjoin : PhL (joinWith ", " (p :: ps)).data (startIdx + 1 + 0) (r :: t).length := by
          have := hrest.2.2.1
          rw [hp] at this
          exact this
        have hhj : headNonDigit (joinWith ", " (p :: ps)).data := by
          have := hrest.2.2.2
          rw [hp] at this
          exact this
        have hin := PhL.append hmid hjoin hhj
        rw [Nat.zero_add] at hin
        have hfin := PhL.append hfrag.1 hin (headNonDigit_append _ _ (by decide) hhj)
        simpa [Nat.add_comm] using hfin
      · rw [hred1, hp]
        simp only [joinWith]
        have hdata : ((("\"" ++ k ++ "\" = $" ++ natToStr startIdx) ++ ", " ++ joinWith ", " (p :: ps)).data)
            = ("\"" ++ k ++ "\" = $" ++ natToStr startIdx).data ++
              ((String.data ", ") ++ (joinWith ", " (p :: ps)).data) := by
          simp [String.data_append, List.append_assoc]
        rw [hdata]
        have hhj : headNonDigit (joinWith ", " (p :: ps)).data := by
          have := hrest.2.2.2
          rw [hp] at this
          exact this
        exact headNonDigit_append _ _ hfrag.2 (headNonDigit_append _ _ (by decide) hhj)

theorem infix_str_append_right (s t u : String) (h : s.data <:+: t.data) :
    s.data <:+: (t ++ u).data := by
  rw [String.data_append]
  exact h.trans ((List.prefix_append _ _).isInfix)

theorem infix_str_append_left (s t : String) : s.data <:+: (t ++ s).data := by
  rw [String.data_append]
  exact (List.suffix_append _ _).isInfix

/-- The WHERE clause appears verbatim inside every SELECT text the
builder produces (ORDER BY / pagination are appended after it). -/
theorem selectQuery_where_infix (b : PostgresQueryBuilder) :
    ((build_where_clause b.filters).1).data <:+: (selectQuery b).data := by
  unfold selectQuery
  cases b.order_by <;> cases b.range_start <;> cases b.range_end <;>
    cases b.limit_val <;> cases b.offset_val <;> dsimp only <;>
    (repeat first
      | exact infix_str_append_left _ _
      | apply infix_str_append_right)

/-! ## Claim theorems -/

/-- C10: for every builder state (any operation, filters or payload),
calling `execute()` while the connection pool is `None` returns a
result with `data = []` and `count = 0` and never raises; no connection
is acquired and no SQL is attempted. -/
theorem execute_without_pool (b : PostgresQueryBuilder) (h : b.pool = none) :
    execute b = .ok { data := ResultData.list [], count := 0 } := by
  unfold execute
  rw [h]
  rfl

/-- Witness for C10 at a concrete builder (an update with filters and a
payload, pool absent). -/
theorem execute_without_pool_witness :
    execute (((initBuilder none "projects" "public").update
        [("name", PyVal.vStr "x")] "representation").eq "id" (PyVal.vInt 1))
      = .ok { data := ResultData.list [], count := 0 } :=
  execute_without_pool _ rfl

/-- C9: when the container lookup reports NotFound, `delete_sandbox`
returns `True` instead of raising (idempotent delete), at both the
docker_sandbox.py level and through the sandbox.py wrapper. -/
theorem delete_sandbox_absent (client : DockerClient) (container_id : String)
    (h : client.getContainer container_id = .error .notFound) :
    delete_sandbox client container_id = .ok true ∧
    sandbox_delete_sandbox client container_id = .ok true := by
  unfold sandbox_delete_sandbox delete_sandbox
  rw [h]
  exact ⟨rfl, rfl⟩

/-- A container runtime client that knows no container. -/
def absentClient : DockerClient :=
  { getContainer := fun _ => .error .notFound
    stop := fun _ _ => .ok ()
    remove := fun _ _ => .ok () }

/-- Witness for C9 at a concrete unknown id. -/
theorem delete_sandbox_absent_witness :
    delete_sandbox absentClient "nonexistent-id" = .ok true ∧
    sandbox_delete_sandbox absentClient "nonexistent-id" = .ok true :=
  delete_sandbox_absent absentClient "nonexistent-id" rfl

theorem findPortLoop_spec (docker_ports : List Nat) (bind1 bind0 : Nat → Bool) (sp ma : Nat) :
    ∀ (n s : Nat) (tested : List Nat) (p : Nat),
    (∀ q ∈ tested, q ∉ docker_ports) →
    (findPortLoop docker_ports bind1 bind0 sp ma (List.range' s n) tested).1 = .ok p →
    (s ≤ p ∧ p < s + n) ∧ p ∉ docker_ports ∧ bind1 p = true ∧ bind0 p = true ∧
    (∀ q, s ≤ q → q < p → q ∈ docker_ports ∨ ¬(bind1 q = true ∧ bind0 q = true)) ∧
    (∀ q ∈ (findPortLoop docker_ports bind1 bind0 sp ma (List.range' s n) tested).2,
      q ∉ docker_ports) := by
  intro n
  induction n with
  | zero =>
    intro s tested p _ hok
    simp [List.range', findPortLoop] at hok
  | succ n ih =>
    intro s tested p htested hok
    rw [range'_cons] at hok ⊢
    by_cases hd : s ∈ docker_ports
    · rw [show findPortLoop docker_ports bind1 bind0 sp ma (s :: List.range' (s + 1) n) tested
          = findPortLoop docker_ports bind1 bind0 sp ma (List.range' (s + 1) n) tested by
        simp [findPortLoop, hd]] at hok ⊢
      obtain ⟨⟨h1, h2⟩, h3, h4, h5, h6, h7⟩ := ih (s + 1) tested p htested hok
      refine ⟨⟨by omega, by omega⟩, h3, h4, h5, ?_, h7⟩
      intro q hq1 hq2
      by_cases hqs : q = s
      · subst hqs; exact Or.inl hd
      · exact h6 q (by omega) hq2
    · by_cases hb1 : bind1 s = true
      · by_cases hb0 : bind0 s = true
        · rw [show findPortLoop docker_ports bind1 bind0 sp ma (s :: List.range' (s + 1) n) tested
              = (.ok s, tested ++ [s]) by
            simp [findPortLoop, hd, hb1, hb0]] at hok ⊢
          simp at hok
          subst hok
          refine ⟨⟨by omega, by omega⟩, hd, hb1, hb0, ?_, ?_⟩
          · intro q hq1 hq2; omega
          · intro q hq
            rcases List.mem_append.mp hq with hq | hq
            · exact htested q hq
            · simp at hq; subst hq; exact hd
        · rw [show findPortLoop docker_ports bind1 bind0 sp ma (s :: List.range' (s + 1) n) tested
              = findPortLoop docker_ports bind1 bind0 sp ma (List.range' (s + 1) n) (tested ++ [s]) by
            simp [findPortLoop, hd, hb1, hb0]] at hok ⊢
          have htested2 : ∀ q ∈ tested ++ [s], q ∉ docker_ports := by
            intro q hq
            rcases List.mem_append.mp hq with hq | hq
            · exact htested q hq
            · simp at hq; subst hq; exact hd
          obtain ⟨⟨h1, h2⟩, h3, h4, h5, h6, h7⟩ := ih (s + 1) (tested ++ [s]) p htested2 hok
          refine ⟨⟨by omega, by omega⟩, h3, h4, h5, ?_, h7⟩
          intro q hq1 hq2
          by_cases hqs : q = s
          · subst hqs
            right
            intro hc
            exact hb0 hc.2
          · exact h6 q (by omega) hq2
      · rw [show findPortLoop docker_ports bind1 bind0 sp ma (s :: List.range' (s + 1) n) tested
            = findPortLoop docker_ports bind1 bind0 sp ma (List.range' (s + 1) n) (tested ++ [s]) by
          simp [findPortLoop, hd, hb1]] at hok ⊢
        have htested2 : ∀ q ∈ tested ++ [s], q ∉ docker_ports := by
          intro q hq
          rcases List.mem_append.mp hq with hq | hq
          · exact htested q hq
          · simp at hq; subst hq; exact hd
        obtain ⟨⟨h1, h2⟩, h3, h4, h5, h6, h7⟩ := ih (s + 1) (tested ++ [s]) p htested2 hok
        refine ⟨⟨by omega, by omega⟩, h3, h4, h5, ?_, h7⟩
        intro q hq1 hq2
        by_cases hqs : q = s
        · subst hqs
          right
          intro hc
          exact hb1 hc.1
        · exact h6 q (by omega) hq2

/-- C8: every port the allocator returns lies in the scan window
`[start_port, start_port + max_attempts)`, is outside the
Docker-published-port set collected at the start of the scan, passes
both bind probes, is the first such candidate in the window, and no
candidate from the Docker set is ever bind-tested (the ghost `tested`
list stays disjoint from the set). -/
theorem find_available_port_spec (docker_ports : List Nat) (bind1 bind0 : Nat → Bool)
    (start_port max_attempts p : Nat)
    (h : (find_available_port docker_ports bind1 bind0 start_port max_attempts).1 = .ok p) :
    (start_port ≤ p ∧ p < start_port + max_attempts) ∧
    p ∉ docker_ports ∧
    bind1 p = true ∧ bind0 p = true ∧
    (∀ q, start_port ≤ q → q < p → q ∈ docker_ports ∨ ¬(bind1 q = true ∧ bind0 q = true)) ∧
    (∀ q ∈ (find_available_port docker_ports bind1 bind0 start_port max_attempts).2,
      q ∉ docker_ports) :=
  findPortLoop_spec docker_ports bind1 bind0 start_port max_attempts max_attempts start_port [] p
    (fun q hq => absurd hq (List.not_mem_nil q)) h

/-- Witness for C8: base port 8080 with 8080 Docker-published, 8081
failing the loopback bind, so the scan returns 8082. -/
theorem find_available_port_spec_witness :
    (find_available_port [8080] (fun q => q != 8081) (fun _ => true) 8080 100).1 = .ok 8082 ∧
    ((8080 ≤ 8082 ∧ 8082 < 8080 + 100) ∧
      8082 ∉ [8080] ∧
      (fun q => q != 8081) 8082 = true ∧ (fun _ => true) 8082 = true ∧
      (∀ q, 8080 ≤ q → q < 8082 →
        q ∈ [8080] ∨ ¬((fun q => q != 8081) q = true ∧ (fun _ => true) q = true)) ∧
      (∀ q ∈ (find_available_port [8080] (fun q => q != 8081) (fun _ => true) 8080 100).2,
        q ∉ [8080])) :=
  ⟨by rfl, find_available_port_spec [8080] (fun q => q != 8081) (fun _ => true) 8080 100 8082
    (by rfl)⟩

/-- C3 (evaluating the code at the failing input): `jsonb_eq` appends
its path argument with no validation whatsoever, and the WHERE-clause
compiler splices it verbatim between single quotes in the SQL text, so
a path containing single quotes flows straight into the statement
(`"sandbox"->>'id' = '' OR '1'='1' = $1`) instead of being rejected —
the injection-safe validation the spec requires does not exist in the
code. -/
theorem jsonb_eq_path_spliced_verbatim :
    ((initBuilder none "projects" "public").jsonb_eq "sandbox"
        "id\x27 = \x27\x27 OR \x271\x27=\x271" (.vStr "x")).filters
      = [Filter.jsonb_eq "sandbox" "id\x27 = \x27\x27 OR \x271\x27=\x271" (.vStr "x")] ∧
    build_where_clause [Filter.jsonb_eq "sandbox" "id\x27 = \x27\x27 OR \x271\x27=\x271" (.vStr "x")]
      = (" WHERE \"sandbox\"->>\x27id\x27 = \x27\x27 OR \x271\x27=\x271\x27 = $1", [.vStr "x"]) :=
  ⟨rfl, rfl⟩

/-- The normalization the specification prescribes for datetime values:
a naive datetime is tagged as UTC, an aware one is converted to the
equivalent UTC instant. -/
def specNormalizeUTC (d : PyDatetime) : PyDatetime :=
  match d.tz with
  | none => ⟨d.wall, some 0⟩
  | some o => ⟨d.wall - o, some 0⟩

/-- C4 (amended): the INSERT path normalizes every datetime payload
value to timezone-aware UTC exactly as the spec prescribes, but the
UPDATE and UPSERT paths only tag naive datetimes as UTC and bind
timezone-aware datetimes unchanged, without converting non-UTC offsets
to UTC. -/
theorem datetime_binding_by_operation (d : PyDatetime) :
    insertProcessValue (.vDatetime d) = .vDatetime (specNormalizeUTC d) ∧
    updateProcessValue (.vDatetime d)
      = .vDatetime (if d.tz = none then ⟨d.wall, some 0⟩ else d) ∧
    upsertProcessValue (.vDatetime d)
      = .vDatetime (if d.tz = none then ⟨d.wall, some 0⟩ else d) := by
  obtain ⟨w, tz⟩ := d
  refine ⟨?_, ?_, ?_⟩ <;> cases tz with
  | none => rfl
  | some o =>
    first
    | (show updateProcessValue _ = _
       simp [updateProcessValue])
    | (show upsertProcessValue _ = _
       simp [upsertProcessValue])
    | (by_cases ho : o = 0
       · subst ho
         simp [insertProcessValue, specNormalizeUTC, PyDatetime.replaceTzUTC]
       · simp [insertProcessValue, specNormalizeUTC, PyDatetime.astimezoneUTC, ho])

/-- C4 (refuting the claim as stated): an update payload datetime that
is timezone-aware at offset +3600 s is bound completely unchanged — its
tzinfo stays +3600, which is not UTC, and it is not the spec-prescribed
UTC conversion. -/
theorem update_aware_datetime_not_converted :
    updateProcessValue (.vDatetime ⟨0, some 3600⟩) = .vDatetime ⟨0, some 3600⟩ ∧
    upsertProcessValue (.vDatetime ⟨0, some 3600⟩) = .vDatetime ⟨0, some 3600⟩ ∧
    (⟨0, some 3600⟩ : PyDatetime).tz ≠ some 0 ∧
    updateProcessValue (.vDatetime ⟨0, some 3600⟩)
      ≠ .vDatetime (specNormalizeUTC ⟨0, some 3600⟩) := by
  refine ⟨rfl, rfl, by decide, ?_⟩
  intro h
  simp [specNormalizeUTC, updateProcessValue] at h

/-- C5: for every nonempty upsert payload row, the generated statement
is an INSERT ... VALUES whose ON CONFLICT target is exactly the row's
first declared column, and whose DO UPDATE SET assigns
`EXCLUDED."c"` to every remaining column in declaration order.  The
builder receives no information about the table's real unique or
primary key: the conflict target is `columns[0]` unconditionally. -/
theorem upsert_conflict_target_first_column (b : PostgresQueryBuilder) (k0 : String)
    (v0 : PyVal) (rest : Row) :
    upsertRowQuery b ((k0, v0) :: rest)
      = (("\n                INSERT INTO " ++ fullTableName b ++ " ("
          ++ joinWith ", " ((((k0, v0) :: rest).map Prod.fst).map (fun c => "\"" ++ c ++ "\"")) ++ ") "
          ++ "\n                VALUES ("
          ++ joinWith ", " ((List.range (((k0, v0) :: rest).map Prod.fst).length).map
              (fun i => "$" ++ natToStr (i + 1))) ++ ")"
          ++ "\n                ON CONFLICT (\"" ++ k0 ++ "\") DO UPDATE SET "
          ++ joinWith ", " ((rest.map Prod.fst).map
              (fun c => "\"" ++ c ++ "\" = EXCLUDED.\"" ++ c ++ "\""))
          ++ "\n            ")
        ++ (if b.returning then " RETURNING *" else "")) := by
  cases hb : b.returning <;>
    simp [upsertRowQuery, hb, String.append_assoc, Function.comp]

/-- Witness for C5: a two-column row keyed (by position only) on `id`,
and the same columns in swapped order showing the conflict target
follows declaration order, not any table key. -/
theorem upsert_conflict_target_first_column_witness :
    upsertRowQuery (initBuilder none "projects" "public") [("id", .vInt 1), ("name", .vStr "a")]
      = "\n                INSERT INTO \"public\".\"projects\" (\"id\", \"name\") \n                VALUES ($1, $2)\n                ON CONFLICT (\"id\") DO UPDATE SET \"name\" = EXCLUDED.\"name\"\n             RETURNING *" ∧
    upsertRowQuery (initBuilder none "projects" "public") [("name", .vStr "a"), ("id", .vInt 1)]
      = "\n                INSERT INTO \"public\".\"projects\" (\"name\", \"id\") \n                VALUES ($1, $2)\n                ON CONFLICT (\"name\") DO UPDATE SET \"id\" = EXCLUDED.\"id\"\n             RETURNING *" := by
  constructor
  · have h := upsert_conflict_target_first_column (initBuilder none "projects" "public")
      "id" (.vInt 1) [("name", .vStr "a")]
    rw [h]
    rfl
  · have h := upsert_conflict_target_first_column (initBuilder none "projects" "public")
      "name" (.vStr "a") [("id", .vInt 1)]
    rw [h]
    rfl

/-- C6 (amended): with `matching` the rows of the table that satisfy
the WHERE clause in order, and the connection's fetch modelled from the
spec as returning `matching.take 1` for the generated `LIMIT 1` query
(the PostgreSQL LIMIT semantics), `single()` raises the NotFound-kind
error on zero rows, returns the first matching row itself (not wrapped
in a list) when at least one nonempty row matches — so on more than one
matching row only the first is returned — and `maybe_single()` on zero
rows returns without raising, with `data = []` (the result
constructor's `data or []` coalesces `None` to the empty list, so the
data is the empty list rather than `None`). -/
theorem single_maybe_single_semantics (b0 : PostgresQueryBuilder) (conn : Conn)
    (matching : List Row)
    (hcm : b0.count_mode = none)
    (hsf : b0.single_flag = false) (hmf : b0.maybe_single_flag = false)
    (hfetch1 : conn.fetch (selectQuery b0.single) (build_where_clause b0.single.filters).2
      = matching.take 1)
    (hfetch2 : conn.fetch (selectQuery b0.maybe_single) (build_where_clause b0.maybe_single.filters).2
      = matching.take 1) :
    b0.single.limit_val = some 1 ∧
    b0.maybe_single.limit_val = some 1 ∧
    (matching = [] →
      execute_select b0.single conn = .error ("No rows found in " ++ b0.table_name)) ∧
    (matching ≠ [] → matching.headD [] ≠ [] →
      execute_select b0.single conn
        = .ok { data := .one (matching.headD []), count := 1 }) ∧
    (matching = [] →
      execute_select b0.maybe_single conn = .ok { data := .list [], count := 0 }) := by
  have hcm1 : b0.single.count_mode = none := hcm
  have hcm2 : b0.maybe_single.count_mode = none := hcm
  have hsf1 : b0.single.single_flag = true := rfl
  refine ⟨rfl, rfl, ?_, ?_, ?_⟩
  · intro hm
    subst hm
    simp only [List.take_nil] at hfetch1
    simp [execute_select, hfetch1, hcm1]
    rfl
  · intro hm hr
    obtain ⟨r, t, hrt⟩ : ∃ r t, matching = r :: t := by
      cases matching with
      | nil => exact absurd rfl hm
      | cons r t => exact ⟨r, t, rfl⟩
    subst hrt
    simp only [List.take_succ_cons, List.take_zero] at hfetch1
    simp only [List.headD_cons] at hr
    cases hrc : r with
    | nil => exact absurd hrc hr
    | cons kv rt =>
      subst hrc
      simp [execute_select, hfetch1, hcm1, hsf1, mkResult, ResultData.falsy]
  · intro hm
    subst hm
    simp only [List.take_nil] at hfetch2
    have hms : b0.maybe_single.single_flag = false := hsf
    simp [execute_select, hfetch2, hcm2, hms, mkResult, ResultData.falsy]

/-- A connection whose database holds no matching rows. -/
def emptyConn : Conn :=
  { fetch := fun _ _ => []
    fetchval := fun _ _ => none
    fetchrow := fun _ _ => none
    exec := fun _ _ => "" }

/-- C6 (refuting the claim as stated): a `maybe_single()` select over
zero matching rows produces `data = []` — the empty list — because
`PostgresQueryResult.__init__` stores `data or []`; the claim's
promised `data = None` is never observable. -/
theorem maybe_single_zero_rows_yields_empty_list :
    execute ((initBuilder (some emptyConn) "projects" "public").maybe_single)
      = .ok { data := ResultData.list [], count := 0 } ∧
    ResultData.list [] ≠ ResultData.null ∧
    mkResult ResultData.null 0 = { data := ResultData.list [], count := 0 } := by
  refine ⟨rfl, ?_, rfl⟩
  intro h
  cases h

/-- C7: an `('in', column, [])` filter compiles to the always-false
condition `FALSE` and a `('not_in', column, [])` filter to the
always-true `TRUE`, each binding zero parameters; consequently a select
whose only filter is an empty `in` executes without raising and returns
zero rows with `count = 0`, for any database respecting `WHERE FALSE`
(the hypothesis on `conn.fetch` is the PostgreSQL semantics of an
always-false WHERE clause, modelled from the spec). -/
theorem empty_in_filter_semantics (col col2 : String) (rest : List Filter)
    (conds : List String) (params : List PyVal) (idx : Nat)
    (b : PostgresQueryBuilder) (conn : Conn)
    (hfs : b.filters = [Filter.in_ col []])
    (hop : b.operation = .select)
    (hpool : b.pool = some conn)
    (hcm : b.count_mode = none)
    (hsf : b.single_flag = false) (hmf : b.maybe_single_flag = false)
    (hdb : ∀ q ps, (String.data " WHERE FALSE") <:+: q.data → conn.fetch q ps = []) :
    whereLoop (Filter.in_ col [] :: rest) conds params idx
      = whereLoop rest (conds ++ ["FALSE"]) params idx ∧
    whereLoop (Filter.not_in col2 [] :: rest) conds params idx
      = whereLoop rest (conds ++ ["TRUE"]) params idx ∧
    build_where_clause [Filter.in_ col []] = (" WHERE FALSE", []) ∧
    build_where_clause [Filter.not_in col2 []] = (" WHERE TRUE", []) ∧
    execute b = .ok { data := ResultData.list [], count := 0 } := by
  have hwc : build_where_clause b.filters = (" WHERE FALSE", []) := by
    rw [hfs]
    rfl
  have hrows : conn.fetch (selectQuery b) [] = [] := by
    apply hdb
    have h := selectQuery_where_infix b
    rw [hwc] at h
    exact h
  refine ⟨rfl, rfl, rfl, rfl, ?_⟩
  unfold execute
  rw [hpool, hop]
  simp [execute_select, hwc, hrows, hcm, hsf, hmf]
  rfl

/-- A connection whose database contains the row `{"id": 1}` (and a
second matching row that `LIMIT 1` cuts off). -/
def c6conn : Conn :=
  { fetch := fun _ _ => [[("id", PyVal.vInt 1)]]
    fetchval := fun _ _ => none
    fetchrow := fun _ _ => none
    exec := fun _ _ => "" }

/-- A builder for `table("users").select().eq("id", 1)`. -/
def c6builder : PostgresQueryBuilder :=
  (initBuilder (some c6conn) "users" "public").eq "id" (.vInt 1)

/-- Witness for C6 with two matching rows, of which the fetch returns
the `LIMIT 1` prefix. -/
theorem single_maybe_single_semantics_witness :
    c6builder.single.limit_val = some 1 ∧
    c6builder.maybe_single.limit_val = some 1 ∧
    (([[("id", PyVal.vInt 1)], [("id", PyVal.vInt 2)]] : List Row) = [] →
      execute_select c6builder.single c6conn
        = .error ("No rows found in " ++ c6builder.table_name)) ∧
    (([[("id", PyVal.vInt 1)], [("id", PyVal.vInt 2)]] : List Row) ≠ [] →
      ([[("id", PyVal.vInt 1)], [("id", PyVal.vInt 2)]] : List Row).headD [] ≠ [] →
      execute_select c6builder.single c6conn
        = .ok { data := .one (([[("id", PyVal.vInt 1)], [("id", PyVal.vInt 2)]] : List Row).headD []),
                count := 1 }) ∧
    (([[("id", PyVal.vInt 1)], [("id", PyVal.vInt 2)]] : List Row) = [] →
      execute_select c6builder.maybe_single c6conn
        = .ok { data := .list [], count := 0 }) :=
  single_maybe_single_semantics c6builder c6conn
    [[("id", PyVal.vInt 1)], [("id", PyVal.vInt 2)]] rfl rfl rfl rfl rfl

/-- A builder for `table("tasks").select().in_("status", [])`. -/
def c7builder : PostgresQueryBuilder :=
  ((initBuilder (some emptyConn) "tasks" "public").select "*" none).in_ "status" []

/-- Witness for C7 at a concrete empty-`in` select. -/
theorem empty_in_filter_semantics_witness :
    whereLoop (Filter.in_ "status" [] :: []) [] [] 1
      = whereLoop [] (([] : List String) ++ ["FALSE"]) [] 1 ∧
    whereLoop (Filter.not_in "other" [] :: []) [] [] 1
      = whereLoop [] (([] : List String) ++ ["TRUE"]) [] 1 ∧
    build_where_clause [Filter.in_ "status" []] = (" WHERE FALSE", []) ∧
    build_where_clause [Filter.not_in "other" []] = (" WHERE TRUE", []) ∧
    execute c7builder = .ok { data := ResultData.list [], count := 0 } :=
  empty_in_filter_semantics "status" "other" [] [] [] 1 c7builder emptyConn
    rfl rfl rfl rfl rfl rfl (fun _ _ _ => rfl)

/-- C2: for every filter chain over `$`-free identifiers, the compiled
WHERE clause's placeholder tokens are exactly `$1, $2, ..., $k` in
strictly increasing textual order with no gaps or repeats, where `k` is
the length of the emitted parameter list, and that length equals the
claims' counting formula (one per filter; zero for `is`/`is_not` on
NULL; one per element for `in`/`not_in`). -/
theorem where_clause_placeholder_discipline (fs : List Filter) (h : ∀ f ∈ fs, f.clean) :
    placeholdersIn (build_where_clause fs).1
      = List.range' 1 (build_where_clause fs).2.length ∧
    (build_where_clause fs).2.length = paramCountOf fs := by
  obtain ⟨hlen, hph, _⟩ := build_where_spec fs h
  refine ⟨?_, hlen⟩
  have h2 := hph [] headNonDigit_nil
  rw [List.append_nil] at h2
  simpa [placeholdersIn, phAux] using h2

/-- The filter chain used by the C2 witness: a mix of one-placeholder,
zero-placeholder and list-expanding filters. -/
def c2filters : List Filter :=
  [.eq "a" (.vInt 1), .is "b" .vNull, .in_ "c" [.vInt 1, .vInt 2],
   .jsonb_eq "d" "p" (.vStr "x"), .not_in "e" []]

/-- Witness for C2, with the scanner output also evaluated concretely. -/
theorem where_clause_placeholder_discipline_witness :
    (placeholdersIn (build_where_clause c2filters).1
        = List.range' 1 (build_where_clause c2filters).2.length ∧
      (build_where_clause c2filters).2.length = paramCountOf c2filters) ∧
    placeholdersIn (build_where_clause c2filters).1 = [1, 2, 3, 4] :=
  ⟨where_clause_placeholder_discipline c2filters (by decide), by rfl⟩

theorem placeholders_updateQuery (b : PostgresQueryBuilder) (sp : List String) (wc : String)
    (n m : Nat)
    (hsp : PhL (joinWith ", " sp).data (n + 1) m)
    (hwc : PhL wc.data 1 n)
    (hwchd : headNonDigit wc.data)
    (hsch : dollarFree b.schema_name) (htab : dollarFree b.table_name) :
    placeholdersIn (updateQuery b sp wc) = List.range' (n + 1) m ++ List.range' 1 n := by
  have hftn : ∀ c ∈ (fullTableName b).data, c ≠ '$' := by
    unfold fullTableName
    simp only [String.data_append]
    exact no_dollar_append _ _ (no_dollar_append _ _ (no_dollar_append _ _
      (no_dollar_append _ _ (by decide) hsch) (by decide)) htab) (by decide)
  have hA : ∀ c ∈ (("UPDATE " ++ fullTableName b ++ " SET ").data), c ≠ '$' := by
    simp only [String.data_append]
    exact no_dollar_append _ _ (no_dollar_append _ _ (by decide) hftn) (by decide)
  have main : ∀ T : List Char, (∀ c ∈ T, c ≠ '$') → headNonDigit T →
      phAux ((("UPDATE " ++ fullTableName b ++ " SET " ++ joinWith ", " sp ++ wc).data) ++ T) .norm
        = List.range' (n + 1) m ++ List.range' 1 n := by
    intro T hT hTh
    have hdata : ((("UPDATE " ++ fullTableName b ++ " SET " ++ joinWith ", " sp ++ wc).data) ++ T)
        = (("UPDATE " ++ fullTableName b ++ " SET ").data)
          ++ ((joinWith ", " sp).data ++ (wc.data ++ T)) := by
      simp [String.data_append, List.append_assoc]
    rw [hdata]
    rw [phAux_no_dollar _ hA]
    rw [hsp (wc.data ++ T) (headNonDigit_append _ _ hwchd hTh)]
    rw [hwc T hTh]
    rw [phAux_nil_of_no_dollar T hT]
    simp
  unfold updateQuery placeholdersIn
  cases hb : b.returning with
  | false =>
    simp only [Bool.false_eq_true, if_false]
    have h := main [] (by intro c hc; cases hc) headNonDigit_nil
    simpa using h
  | true =>
    simp only [if_true]
    rw [String.data_append]
    exact main ((String.data " RETURNING *")) (by decide) (by decide)

/-- C1: for every update with filters and a nonempty payload (over
`$`-free identifiers), the UPDATE statement numbers the WHERE-clause
placeholders `$1..$n` (`n` = number of WHERE parameters), numbers the
SET-clause placeholders consecutively from `$n+1`, and passes the
positional parameter list as the WHERE parameters followed by the
(processed) SET parameters — so the whole statement mentions each
placeholder `$1..$n+m` exactly once and the i-th parameter in the list
is the value bound to `$i`. -/
theorem update_parameter_numbering (b : PostgresQueryBuilder) (kvs : Row)
    (hfs : b.filters ≠ []) (hkvs : kvs ≠ [])
    (hclean : ∀ f ∈ b.filters, f.clean)
    (hkeys : ∀ kv ∈ kvs, dollarFree kv.1)
    (hsch : dollarFree b.schema_name) (htab : dollarFree b.table_name) :
    placeholdersIn (build_where_clause b.filters).1
      = List.range' 1 (build_where_clause b.filters).2.length ∧
    placeholdersIn (joinWith ", "
        (updateLoop kvs ((build_where_clause b.filters).2.length + 1)).1)
      = List.range' ((build_where_clause b.filters).2.length + 1) kvs.length ∧
    (updateStatement b kvs).2
      = (build_where_clause b.filters).2 ++ kvs.map (fun kv => updateProcessValue kv.2) ∧
    (updateStatement b kvs).2.length
      = (build_where_clause b.filters).2.length + kvs.length ∧
    placeholdersIn (updateStatement b kvs).1
      = List.range' ((build_where_clause b.filters).2.length + 1) kvs.length
        ++ List.range' 1 (build_where_clause b.filters).2.length := by
  obtain ⟨hlen, hph, hhd⟩ := build_where_spec b.filters hclean
  obtain ⟨hul, huv, hup, huh⟩ :=
    updateLoop_spec kvs ((build_where_clause b.filters).2.length + 1) hkeys
  have hproj2 : (updateStatement b kvs).2
      = (build_where_clause b.filters).2
        ++ (updateLoop kvs ((build_where_clause b.filters).2.length + 1)).2 := rfl
  refine ⟨?_, ?_, ?_, ?_, ?_⟩
  · have h2 := hph [] headNonDigit_nil
    rw [List.append_nil] at h2
    simpa [placeholdersIn, phAux] using h2
  · have h2 := hup [] headNonDigit_nil
    rw [List.append_nil] at h2
    simpa [placeholdersIn, phAux] using h2
  · rw [hproj2, huv]
  · rw [hproj2, huv]
    simp
  · have hproj1 : (updateStatement b kvs).1
        = updateQuery b (updateLoop kvs ((build_where_clause b.filters).2.length + 1)).1
            (build_where_clause b.filters).1 := rfl
    rw [hproj1]
    exact placeholders_updateQuery b _ _ _ kvs.length hup hph hhd hsch htab

/-- The builder used by the C1 witness:
`table("projects").update({"name": "x", "meta": 7}).eq("id", 1).gt("age", 2)`. -/
def c1builder : PostgresQueryBuilder :=
  (((initBuilder (some emptyConn) "projects" "public").update
      [("name", .vStr "x"), ("meta", .vInt 7)] "representation").eq "id" (.vInt 1)).gt
    "age" (.vInt 2)

/-- Witness for C1, with the statement's scanner output also evaluated
concretely: SET placeholders $3,$4 then WHERE placeholders $1,$2. -/
theorem update_parameter_numbering_witness :
    (placeholdersIn (build_where_clause c1builder.filters).1
        = List.range' 1 (build_where_clause c1builder.filters).2.length ∧
      placeholdersIn (joinWith ", "
          (updateLoop [("name", PyVal.vStr "x"), ("meta", PyVal.vInt 7)]
            ((build_where_clause c1builder.filters).2.length + 1)).1)
        = List.range' ((build_where_clause c1builder.filters).2.length + 1)
            ([("name", PyVal.vStr "x"), ("meta", PyVal.vInt 7)] : Row).length ∧
      (updateStatement c1builder [("name", PyVal.vStr "x"), ("meta", PyVal.vInt 7)]).2
        = (build_where_clause c1builder.filters).2
          ++ ([("name", PyVal.vStr "x"), ("meta", PyVal.vInt 7)] : Row).map
              (fun kv => updateProcessValue kv.2) ∧
      (updateStatement c1builder [("name", PyVal.vStr "x"), ("meta", PyVal.vInt 7)]).2.length
        = (build_where_clause c1builder.filters).2.length
          + ([("name", PyVal.vStr "x"), ("meta", PyVal.vInt 7)] : Row).length ∧
      placeholdersIn (updateStatement c1builder
          [("name", PyVal.vStr "x"), ("meta", PyVal.vInt 7)]).1
        = List.range' ((build_where_clause c1builder.filters).2.length + 1)
            ([("name", PyVal.vStr "x"), ("meta", PyVal.vInt 7)] : Row).length
          ++ List.range' 1 (build_where_clause c1builder.filters).2.length) ∧
    placeholdersIn (updateStatement c1builder
        [("name", PyVal.vStr "x"), ("meta", PyVal.vInt 7)]).1 = [3, 4, 1, 2] :=
  ⟨update_parameter_numbering c1builder [("name", PyVal.vStr "x"), ("meta", PyVal.vInt 7)]
      (by simp [c1builder, initBuilder, PostgresQueryBuilder.update, PostgresQueryBuilder.eq,
        PostgresQueryBuilder.gt])
      (by simp) (by decide) (by decide) (by decide) (by decide),
    by rfl⟩

end Aurora
